import Mathlib

/-!
# DRS Music backend: the socket presence-and-messaging relay

A shallow embedding of `src/lib/socket.js`.  The two `Map`s closed over by
`initializeSocket` are explicit state (`Registry`); every handler registered
with `socket.on` is a function from the registry, the id of the socket the
event arrived on and the event argument to the new registry and the list of
observable effects, in program order.
-/

namespace DRSMusic

/-! ## JavaScript values -/

/-- A JavaScript value as it can arrive in an event argument.  Numbers are
restricted to integers; `obj ref` is an object identified by its reference. -/
inductive JSVal where
  | undefined
  | null
  | bool (b : Bool)
  | num (n : Int)
  | str (s : String)
  | obj (ref : Nat)
  deriving DecidableEq

/-- JavaScript truthiness (`ToBoolean`), as used by `if (x)`. -/
def JSVal.truthy : JSVal → Bool
  | .undefined => false
  | .null => false
  | .bool b => b
  | .num n => n != 0
  | .str s => s != ""
  | .obj _ => true

/-- The id of a live socket: `socket.id`, a string generated by the transport,
never empty. -/
abbrev SocketId := { s : String // s ≠ "" }

/-! ## `Map`: insertion-ordered, one entry per key -/

/-- A JavaScript `Map`: its entries in insertion order, keys pairwise distinct. -/
abbrev JSMap (K V : Type) := { l : List (K × V) // (l.map Prod.fst).Nodup }

section MapOps
variable {K V : Type} [DecidableEq K]

/-- `Map.prototype.set` on the entry list: an existing key keeps its position
and gets the new value, a new key is appended. -/
def setEntries (k : K) (v : V) : List (K × V) → List (K × V)
  | [] => [(k, v)]
  | (k1, v1) :: rest =>
    if k1 = k then (k, v) :: rest else (k1, v1) :: setEntries k v rest

/-- `Map.prototype.get` on the entry list (`none` is `undefined`). -/
def getEntries (k : K) : List (K × V) → Option V
  | [] => none
  | (k1, v1) :: rest => if k1 = k then some v1 else getEntries k rest

/-- `Map.prototype.delete` on the entry list. -/
def deleteEntries (k : K) (l : List (K × V)) : List (K × V) :=
  l.filter (fun e => decide (e.1 ≠ k))

/-- The empty map, `new Map()`. -/
def JSMap.empty : JSMap K V := ⟨[], List.nodup_nil⟩

/-- `m.set(k, v)`. -/
def JSMap.set (m : JSMap K V) (k : K) (v : V) : JSMap K V :=
  ⟨setEntries k v m.val, by
    have keys : ∀ l : List (K × V), (setEntries k v l).map Prod.fst
        = if k ∈ l.map Prod.fst then l.map Prod.fst else l.map Prod.fst ++ [k] := by
      intro l
      induction l with
      | nil => simp [setEntries]
      | cons e rest ih =>
        obtain ⟨k1, v1⟩ := e
        by_cases h : k1 = k
        · subst h; simp [setEntries]
        · have h2 : ¬ k = k1 := fun q => h q.symm
          simp only [setEntries, h, if_false, List.map_cons, ih, List.mem_cons, h2, false_or]
          split <;> simp
    rw [keys]
    split
    · exact m.property
    · rename_i hk
      exact List.Nodup.append m.property (List.nodup_singleton k) (by simpa using hk)⟩

/-- `m.get(k)`. -/
def JSMap.get (m : JSMap K V) (k : K) : Option V := getEntries k m.val

/-- `m.delete(k)`. -/
def JSMap.delete (m : JSMap K V) (k : K) : JSMap K V :=
  ⟨deleteEntries k m.val, m.property.sublist ((List.filter_sublist m.val).map Prod.fst)⟩

/-- `Array.from(m.keys())`. -/
def JSMap.keys (m : JSMap K V) : List K := m.val.map Prod.fst

/-- `Array.from(m.entries())`. -/
def JSMap.entries (m : JSMap K V) : List (K × V) := m.val

end MapOps

/-! ## Data model of the relay -/

/-- Modelled from the spec: the record returned by `Message.create`
(`models/message.model.js` is not part of the sources): sender, receiver and
content as passed in, plus the identity and the creation timestamp assigned by
the persistence collaborator. -/
structure Message where
  id : String
  senderId : JSVal
  receiverId : JSVal
  content : JSVal
  createdAt : Nat
  deriving DecidableEq

/-- The object handed to `Message.create`: the three properties destructured
from the event payload (`undefined` when the payload lacks one). -/
structure MessageFields where
  senderId : JSVal
  receiverId : JSVal
  content : JSVal
  deriving DecidableEq

/-- What the handlers take from outside the file: the persistence call
`Message.create` (`Except.error reason` is a rejection whose `error.message`
is `reason`) and the `message` of the `TypeError` the engine throws when a
`null` or `undefined` payload is destructured. -/
structure Env where
  create : MessageFields → Except String Message
  destructureError : String

/-- The state closed over by the connection handlers: `userSockets` and
`userActivities`. -/
structure Registry where
  userSockets : JSMap JSVal SocketId
  userActivities : JSMap JSVal JSVal
  deriving DecidableEq

/-- The registry right after `initializeSocket`: two empty maps. -/
def Registry.empty : Registry := ⟨JSMap.empty, JSMap.empty⟩

/-- Events emitted by the server, with their argument. -/
inductive OutEvent where
  | user_connected (userId : JSVal)
  | users_online (userIds : List JSVal)
  | activities (entries : List (JSVal × JSVal))
  | activity_updated (userId activity : JSVal)
  | receive_message (message : Message)
  | message_sent (message : Message)
  | message_error (reason : String)
  | user_disconnected (userId : JSVal)
  deriving DecidableEq

/-- Where an emission goes: `ioInstance.emit` (every connection),
`socket.emit` (the connection the event arrived on) or
`ioInstance.to(id).emit` (the connection with that id). -/
inductive Target where
  | all
  | socket (id : SocketId)
  | to (id : SocketId)
  deriving DecidableEq

/-- One observable effect of a handler. -/
inductive Effect where
  | create (fields : MessageFields)
  | consoleError (reason : String)
  | emit (target : Target) (event : OutEvent)
  | throwTypeError
  deriving DecidableEq

/-- Events received from a client, with their argument.  A payload that is
destructured by the handler is `none` when it is `null` or `undefined`. -/
inductive InEvent where
  | user_connected (userId : JSVal)
  | update_activity (payload : Option (JSVal × JSVal))
  | send_message (data : Option MessageFields)
  | disconnect

/-- An event together with the id of the socket it arrived on. -/
structure Arrival where
  sock : SocketId
  event : InEvent

/-! ## The handlers -/

/-- Handler of `user_connected` (socket.js 21-31). -/
def user_connected (reg : Registry) (sock : SocketId) (userId : JSVal) :
    Registry × List Effect :=
  let userSockets := reg.userSockets.set userId sock
  let userActivities := reg.userActivities.set userId (JSVal.str "Idle")
  (⟨userSockets, userActivities⟩,
    [ Effect.emit Target.all (OutEvent.user_connected userId),
      Effect.emit (Target.socket sock) (OutEvent.users_online userSockets.keys),
      Effect.emit Target.all (OutEvent.activities userActivities.entries) ])

/-- Handler of `update_activity` (socket.js 32-35). -/
def update_activity (reg : Registry) (payload : Option (JSVal × JSVal)) :
    Registry × List Effect :=
  match payload with
  | none => (reg, [Effect.throwTypeError])
  | some (userId, activity) =>
    (⟨reg.userSockets, reg.userActivities.set userId activity⟩,
      [Effect.emit Target.all (OutEvent.activity_updated userId activity)])

/-- Handler of `send_message` (socket.js 37-58); `reg` is the registry at the
time the handler resumes after `await Message.create`. -/
def send_message (env : Env) (reg : Registry) (sock : SocketId)
    (data : Option MessageFields) : Registry × List Effect :=
  match data with
  | none =>
    (reg, [ Effect.consoleError env.destructureError,
            Effect.emit (Target.socket sock) (OutEvent.message_error env.destructureError) ])
  | some fields =>
    match env.create fields with
    | Except.error reason =>
      (reg, [ Effect.create fields,
              Effect.consoleError reason,
              Effect.emit (Target.socket sock) (OutEvent.message_error reason) ])
    | Except.ok message =>
      let deliver : List Effect :=
        match reg.userSockets.get fields.receiverId with
        | none => []
        | some receiverSocketId =>
          if (JSVal.str receiverSocketId.val).truthy then
            [Effect.emit (Target.to receiverSocketId) (OutEvent.receive_message message)]
          else []
      (reg, [Effect.create fields] ++ deliver
              ++ [Effect.emit (Target.socket sock) (OutEvent.message_sent message)])

/-- The `for ... of userSockets.entries()` loop of the disconnect handler: the
first userId, in insertion order, whose socket id is `sock` (`none` when the
loop ends without a match). -/
def findUserId (sock : SocketId) : List (JSVal × SocketId) → Option JSVal
  | [] => none
  | (userId, socketId) :: rest =>
    if socketId = sock then some userId else findUserId sock rest

/-- Handler of `disconnect` (socket.js 60-73). -/
def disconnect (reg : Registry) (sock : SocketId) : Registry × List Effect :=
  match findUserId sock reg.userSockets.entries with
  | none => (reg, [])
  | some dissconnectUserId =>
    (⟨reg.userSockets.delete dissconnectUserId, reg.userActivities.delete dissconnectUserId⟩,
      if dissconnectUserId.truthy then
        [Effect.emit Target.all (OutEvent.user_disconnected dissconnectUserId)]
      else [])

/-- One event handled by the handler registered for it. -/
def step (env : Env) (reg : Registry) (a : Arrival) : Registry × List Effect :=
  match a.event with
  | InEvent.user_connected userId => user_connected reg a.sock userId
  | InEvent.update_activity payload => update_activity reg payload
  | InEvent.send_message data => send_message env reg a.sock data
  | InEvent.disconnect => disconnect reg a.sock

/-- The registry after a sequence of events, handled one after the other. -/
def run (env : Env) (reg : Registry) : List Arrival → Registry
  | [] => reg
  | a :: rest => run env (step env reg a).1 rest

/-! ## Classes of event sequences -/

/-- Is the event `user_connected` or `disconnect`? -/
def InEvent.isConnectOrDisconnect : InEvent → Bool
  | InEvent.user_connected _ => true
  | InEvent.disconnect => true
  | _ => false

/-- Every `update_activity` of the sequence names a userId that is bound in
`userSockets` at the time the event is handled (starting from `reg`). -/
def updatesBound (env : Env) (reg : Registry) : List Arrival → Prop
  | [] => True
  | a :: rest =>
    (∀ u activity, a.event = InEvent.update_activity (some (u, activity)) →
        u ∈ reg.userSockets.keys) ∧
      updatesBound env (step env reg a).1 rest

/-! ## Observers on the effects of a handler -/

/-- Is the effect an emission (to anyone, of any event)? -/
def Effect.isEmit : Effect → Bool
  | Effect.emit _ _ => true
  | _ => false

/-- Is the effect a call of `Message.create`? -/
def Effect.isCreate : Effect → Bool
  | Effect.create _ => true
  | _ => false

/-- Is the effect an emission of `message_sent`? -/
def Effect.isMessageSent : Effect → Bool
  | Effect.emit _ (OutEvent.message_sent _) => true
  | _ => false

/-- Is the effect an emission of `receive_message`? -/
def Effect.isReceiveMessage : Effect → Bool
  | Effect.emit _ (OutEvent.receive_message _) => true
  | _ => false

/-- Is the effect an emission to every connection (`ioInstance.emit`)? -/
def Effect.isBroadcast : Effect → Bool
  | Effect.emit Target.all _ => true
  | _ => false

/-- Does the payload lack `senderId`, `receiverId` or `content`? -/
def MessageFields.missing (f : MessageFields) : Prop :=
  f.senderId = JSVal.undefined ∨ f.receiverId = JSVal.undefined ∨ f.content = JSVal.undefined

instance (f : MessageFields) : Decidable f.missing := by
  unfold MessageFields.missing; infer_instance

/-! ## Concrete values used in the examples -/

/-- A persistence collaborator that rejects a record lacking a field and
stores every other one under the identity `"m1"`. -/
def validatingEnv : Env :=
  ⟨fun f =>
      if f.missing then Except.error "Message validation failed"
      else Except.ok ⟨"m1", f.senderId, f.receiverId, f.content, 0⟩,
    "Cannot destructure property senderId of data as it is undefined."⟩

/-- The payload of a message `"hi"` from `userB` to `userA`. -/
def fieldsHi : MessageFields := ⟨JSVal.str "userB", JSVal.str "userA", JSVal.str "hi"⟩

/-- A payload without `content`. -/
def fieldsNoContent : MessageFields := ⟨JSVal.str "userB", JSVal.str "userA", JSVal.undefined⟩

/-- Socket id `"c1"`. -/
def sockC1 : SocketId := ⟨"c1", by decide⟩

/-- Socket id `"c2"`. -/
def sockC2 : SocketId := ⟨"c2", by decide⟩

/-- A user id. -/
def userA : JSVal := JSVal.str "userA"

/-- Another user id. -/
def userB : JSVal := JSVal.str "userB"

/-- A registry with `userA` bound to `"c1"`, activity `"Listening"`. -/
def regA : Registry :=
  ⟨⟨[(userA, sockC1)], by simp⟩, ⟨[(userA, JSVal.str "Listening")], by simp⟩⟩

/-- Two users announce themselves on the same socket `"c1"`. -/
def twoUsersOneSocket : List Arrival :=
  [⟨sockC1, InEvent.user_connected userA⟩, ⟨sockC1, InEvent.user_connected userB⟩]

/-- Connects on two sockets, then the first socket closes. -/
def connectsThenClose : List Arrival :=
  [⟨sockC1, InEvent.user_connected userA⟩, ⟨sockC2, InEvent.user_connected userB⟩,
    ⟨sockC1, InEvent.disconnect⟩]

/-- Two users connect, the first sets an activity, the second sends it a
message, the first leaves. -/
def fullSession : List Arrival :=
  [⟨sockC1, InEvent.user_connected userA⟩,
    ⟨sockC2, InEvent.user_connected userB⟩,
    ⟨sockC1, InEvent.update_activity (some (userA, JSVal.str "Listening"))⟩,
    ⟨sockC2, InEvent.send_message (some fieldsHi)⟩,
    ⟨sockC1, InEvent.disconnect⟩]

/-- An activity update for a user that never connected. -/
def lateUpdate : List Arrival :=
  [⟨sockC1, InEvent.update_activity (some (userA, JSVal.str "Listening"))⟩]

/-- The registry after `user_connected("")` on socket `"c1"`. -/
def regEmptyUserId : Registry := (user_connected Registry.empty sockC1 (JSVal.str "")).1

/-! ## Traces and what a connection observes -/

/-- The effects of a sequence of events, in the order they happen. -/
def trace (env : Env) (reg : Registry) : List Arrival → List Effect
  | [] => []
  | a :: rest => (step env reg a).2 ++ trace env (step env reg a).1 rest

/-- The event a connection `c` that is open receives from an effect:
`ioInstance.emit` reaches every open connection, `socket.emit` and
`ioInstance.to(id).emit` reach the connection with that id only. -/
def Effect.deliveredTo (c : SocketId) : Effect → Option OutEvent
  | Effect.emit Target.all event => some event
  | Effect.emit (Target.socket id) event => if id = c then some event else none
  | Effect.emit (Target.to id) event => if id = c then some event else none
  | _ => none

/-- The events received, in order, by a connection `c` that is open while the
effects happen. -/
def observedBy (c : SocketId) (effects : List Effect) : List OutEvent :=
  effects.filterMap (Effect.deliveredTo c)

/-- Is the effect an emission of `users_online`? -/
def Effect.isUsersOnline : Effect → Bool
  | Effect.emit _ (OutEvent.users_online _) => true
  | _ => false

/-- A persistence collaborator that stores every record under the identity
`"M1"`. -/
def scenarioEnv : Env :=
  ⟨fun f => Except.ok ⟨"M1", f.senderId, f.receiverId, f.content, 0⟩,
    "Cannot destructure property senderId of data as it is undefined."⟩

/-- The record `M1`: `"yo"` from `userA` to `userB`. -/
def messageM1 : Message := ⟨"M1", userA, userB, JSVal.str "yo", 0⟩

/-- The scenario: `userA` connects on `"c1"`, `userB` connects on `"c2"`,
`userA` changes its activity to `"Listening"`, `userA` sends `"yo"` to `userB`
from `"c1"`, and `"c1"` disconnects. -/
def scenario : List Arrival :=
  [⟨sockC1, InEvent.user_connected userA⟩,
    ⟨sockC2, InEvent.user_connected userB⟩,
    ⟨sockC1, InEvent.update_activity (some (userA, JSVal.str "Listening"))⟩,
    ⟨sockC1, InEvent.send_message (some ⟨userA, userB, JSVal.str "yo"⟩)⟩,
    ⟨sockC1, InEvent.disconnect⟩]

/-! ## JavaScript string operations -/

/-- The characters removed by `String.prototype.trim`: white space and line
terminators. -/
def isJsWhitespace (c : Char) : Bool :=
  c.toNat ∈ [0x09, 0x0A, 0x0B, 0x0C, 0x0D, 0x20, 0xA0, 0x1680, 0x2000, 0x2001, 0x2002,
    0x2003, 0x2004, 0x2005, 0x2006, 0x2007, 0x2008, 0x2009, 0x200A, 0x2028, 0x2029, 0x202F,
    0x205F, 0x3000, 0xFEFF]

/-- `trim` on the characters of a string. -/
def trimChars (l : List Char) : List Char :=
  (l.dropWhile isJsWhitespace).rdropWhile isJsWhitespace

/-- `s.trim()`. -/
def jsTrim (s : String) : String := ⟨trimChars s.data⟩

/-- `split(",")` on the characters of a string. -/
def splitCommaChars : List Char → List (List Char)
  | [] => [[]]
  | c :: cs =>
    if c = ',' then [] :: splitCommaChars cs
    else
      match splitCommaChars cs with
      | [] => [[c]]
      | seg :: rest => (c :: seg) :: rest

/-- `s.split(",")`. -/
def jsSplitComma (s : String) : List String := (splitCommaChars s.data).map String.mk

/-! ## The CORS origin check (index.js) -/

/-- The environment variables read by `index.js` (`none`: not set). -/
structure ProcessEnv where
  LOCAL_IP : Option String
  FRONTEND_URL : Option String
  ALLOWED_ORIGINS : Option String
  NODE_ENV : Option String

/-- The literal of `allowedOrigins` (index.js 29-37). -/
def baseAllowedOrigins : List String :=
  [ "http://localhost:4000",
    "http://127.0.0.1:4000",
    "http://localhost:5173",
    "http://127.0.0.1:5173",
    "http://localhost:8081",
    "https://spotify-chat-jqzp.onrender.com",
    "https://*.riker.replit.dev" ]

/-- `extraOrigins` (index.js 47-49). -/
def extraOrigins (env : ProcessEnv) : List String :=
  match env.ALLOWED_ORIGINS with
  | some value =>
    if value ≠ "" then
      ((jsSplitComma value).map jsTrim).filter (fun origin => decide (origin ≠ ""))
    else []
  | none => []

/-- `allowedOrigins` after the three conditional pushes (index.js 29-51). -/
def allowedOrigins (env : ProcessEnv) : List String :=
  baseAllowedOrigins
    ++ (match env.LOCAL_IP with
        | some ip => if ip ≠ "" then ["http://" ++ ip ++ ":4000"] else []
        | none => [])
    ++ (match env.FRONTEND_URL with
        | some url => if url ≠ "" then [url] else []
        | none => [])
    ++ extraOrigins env

/-- `isProduction` (index.js 53). -/
def isProduction (env : ProcessEnv) : Bool := decide (env.NODE_ENV = some "production")

/-- What the origin function hands to its callback: `callback(null, true)` or
`callback(new Error(message))`. -/
inductive CorsResult where
  | allowed
  | rejected (message : String)
  deriving DecidableEq

/-- The `origin` function given to `cors` (index.js 57-72); `origin` is the
request's `Origin` header (`none`: absent). -/
def corsOrigin (env : ProcessEnv) (origin : Option String) : CorsResult :=
  match origin with
  | none => CorsResult.allowed
  | some o =>
    if o = "" then CorsResult.allowed
    else if !isProduction env then CorsResult.allowed
    else if o ∈ allowedOrigins env then CorsResult.allowed
    else CorsResult.rejected "Not allowed by CORS"

/-- Production, with none of the optional variables set. -/
def productionEnv : ProcessEnv := ⟨none, none, none, some "production"⟩

/-! ## Album ids of a request body (admin.controller.js) -/

/-- A JavaScript number, given by what `Number::toString` reads off it: not
a number, an infinity, a zero (of either sign), or a finite non-zero number
with its sign, the decimal digits of its shortest representation, most
significant first, and the exponent `n`: the value is `0.d₁d₂...dₖ × 10ⁿ`
(so `1e21` is the digit `1` with `n = 22`, and `1.5` the digits `1`, `5` with
`n = 1`). -/
inductive JsNumber where
  | nan
  | infinity (negative : Bool)
  | zero
  | finite (negative : Bool) (digits : List (Fin 10)) (n : Int)

/-- The decimal digits as characters. -/
def digitChars (digits : List (Fin 10)) : List Char :=
  digits.map (fun d => Nat.digitChar d.val)

/-- `Number::toString` in radix 10 (ECMAScript 6.1.6.1.20), which is
`String(x)` for a number `x`. -/
def numberToString : JsNumber → String
  | JsNumber.nan => "NaN"
  | JsNumber.infinity negative => if negative then "-Infinity" else "Infinity"
  | JsNumber.zero => "0"
  | JsNumber.finite negative digits n =>
    let k : Int := digits.length
    let exponent : List Char :=
      [if n - 1 < 0 then '-' else '+'] ++ (Nat.repr (n - 1).natAbs).data
    let body : List Char :=
      if k ≤ n ∧ n ≤ 21 then
        digitChars digits ++ List.replicate (n - k).toNat '0'
      else if 0 < n ∧ n ≤ 21 then
        digitChars (digits.take n.toNat) ++ ['.'] ++ digitChars (digits.drop n.toNat)
      else if -6 < n ∧ n ≤ 0 then
        ['0', '.'] ++ List.replicate (-n).toNat '0' ++ digitChars digits
      else if k = 1 then
        digitChars digits ++ ['e'] ++ exponent
      else
        digitChars (digits.take 1) ++ ['.'] ++ digitChars (digits.drop 1) ++ ['e'] ++ exponent
    ⟨(if negative then ['-'] else []) ++ body⟩

/-- A value of the request body: what the body parsers and `JSON.parse`
produce.  An object is given by its property values, in the order of
`Object.values`. -/
inductive Json where
  | null
  | bool (b : Bool)
  | num (x : JsNumber)
  | str (s : String)
  | arr (items : List Json)
  | obj (values : List Json)

mutual
/-- A size of a value: one per node, plus the length of every string. -/
def Json.size : Json → Nat
  | Json.null => 1
  | Json.bool _ => 1
  | Json.num _ => 1
  | Json.str s => s.length + 1
  | Json.arr items => 1 + Json.sizeList items
  | Json.obj values => 1 + Json.sizeList values
/-- The sizes of the values of a list, added up. -/
def Json.sizeList : List Json → Nat
  | [] => 0
  | v :: rest => v.size + Json.sizeList rest
end

/-- The built-ins of the JavaScript engine used by the album-id code:
`JSON.parse` (`none`: it throws), which returns a value no larger than its
text, and `String.prototype.toLowerCase`. -/
structure Engine where
  jsonParse : String → Option Json
  jsonParse_size : ∀ s v, jsonParse s = some v → v.size ≤ s.length
  toLowerCase : String → String

/-- `sanitizeAlbumId` (admin.controller.js 19-24); `none` is `null`. -/
def sanitizeAlbumId (eng : Engine) (value : Json) : Option String :=
  match value with
  | Json.str s =>
    let trimmed := jsTrim s
    if trimmed = "" ∨ eng.toLowerCase trimmed = "none" then none else some trimmed
  | _ => none

/-- `collector.add(value)` on a `Set` kept as its elements in insertion
order. -/
def setAdd (collector : List String) (value : String) : List String :=
  if value ∈ collector then collector else collector ++ [value]

/-- `if (normalized) collector.add(normalized)`. -/
def addNormalized (normalized : Option String) (collector : List String) : List String :=
  match normalized with
  | some value => if value ≠ "" then setAdd collector value else collector
  | none => collector

/-- The test guarding `JSON.parse` in `processAlbumInput`: the trimmed string
starts with `[` and ends with `]`, or starts and ends with a double quote. -/
def looksLikeJson (trimmed : String) : Bool :=
  (trimmed.data.head? = some '[' && trimmed.data.getLast? = some ']')
    || (trimmed.data.head? = some '"' && trimmed.data.getLast? = some '"')

/-- The `try` block of `processAlbumInput`: the parsed value when the guard
holds and `JSON.parse` returns, `none` when the code falls through. -/
def tryParse (eng : Engine) (trimmed : String) : Option Json :=
  if looksLikeJson trimmed then eng.jsonParse trimmed else none

/-- `String(b)` for a boolean `b`. -/
def booleanToString : Bool → String
  | true => "true"
  | false => "false"

theorem Json.size_le_sizeList (v : Json) (l : List Json) (h : v ∈ l) :
    v.size ≤ Json.sizeList l := by
  induction l with
  | nil => simp at h
  | cons x rest ih =>
    rcases List.mem_cons.1 h with rfl | h
    · simp [Json.sizeList]
    · have := ih h
      simp only [Json.sizeList]
      omega

theorem trimChars_length (l : List Char) : (trimChars l).length ≤ l.length := by
  unfold trimChars
  exact (List.IsPrefix.length_le (List.rdropWhile_prefix _ _)).trans
    (List.Sublist.length_le (List.dropWhile_sublist _))

theorem jsTrim_length (s : String) : (jsTrim s).length ≤ s.length := trimChars_length s.data

theorem splitCommaChars_ne_nil (l : List Char) : splitCommaChars l ≠ [] := by
  cases l with
  | nil => simp [splitCommaChars]
  | cons c cs =>
    simp only [splitCommaChars]
    split
    · simp
    · split <;> simp

/-- A segment of `split(",")` is no longer than the string, and shorter when
the string has a comma. -/
theorem splitCommaChars_length (l : List Char) :
    ∀ seg ∈ splitCommaChars l, seg.length ≤ l.length ∧ (',' ∈ l → seg.length < l.length) := by
  induction l with
  | nil => simp [splitCommaChars]
  | cons c cs ih =>
    intro seg hseg
    simp only [splitCommaChars] at hseg
    by_cases hc : c = ','
    · simp only [hc, if_true, List.mem_cons] at hseg
      rcases hseg with rfl | hseg
      · simp
      · have := (ih seg hseg).1
        simp only [List.length_cons]
        exact ⟨by omega, fun _ => by omega⟩
    · simp only [hc, if_false] at hseg
      have hc2 : ¬ ',' = c := fun q => hc q.symm
      cases hsp : splitCommaChars cs with
      | nil => exact absurd hsp (splitCommaChars_ne_nil cs)
      | cons s0 rest =>
        rw [hsp] at hseg ih
        simp only [List.mem_cons] at hseg
        rcases hseg with rfl | hseg
        · have := ih s0 (List.mem_cons_self _ _)
          simp only [List.length_cons, List.mem_cons, hc2, false_or]
          exact ⟨by omega, fun h => by have := this.2 h; omega⟩
        · have := ih seg (List.mem_cons_of_mem _ hseg)
          simp only [List.length_cons, List.mem_cons, hc2, false_or]
          exact ⟨by omega, fun h => by have := this.2 h; omega⟩

/-- `processAlbumInput` (admin.controller.js 32-71): the collector after the
call.  The recursion ends because every recursive call is on a smaller value:
an element of an array or object, the value parsed from the string, or a
segment of a string that has a comma. -/
def processAlbumInput (eng : Engine) (input : Json) (collector : List String) : List String :=
  match input with
  | Json.arr items =>
    items.attach.foldl (fun acc val => processAlbumInput eng val.1 acc) collector
  | Json.str s =>
    if jsTrim s = "" then collector
    else
      match hparse : tryParse eng (jsTrim s) with
      | some parsed => processAlbumInput eng parsed collector
      | none =>
        if hcomma : ',' ∈ (jsTrim s).data then
          (jsSplitComma (jsTrim s)).attach.foldl
            (fun acc segment => processAlbumInput eng (Json.str segment.1) acc) collector
        else addNormalized (sanitizeAlbumId eng (Json.str (jsTrim s))) collector
  | Json.obj values =>
    values.attach.foldl (fun acc val => processAlbumInput eng val.1 acc) collector
  | Json.null => collector
  | Json.bool b =>
    addNormalized (sanitizeAlbumId eng (Json.str (booleanToString b))) collector
  | Json.num x =>
    addNormalized (sanitizeAlbumId eng (Json.str (numberToString x))) collector
termination_by input.size
decreasing_by
  · have := Json.size_le_sizeList val.1 items val.2
    simp only [Json.size]
    omega
  · have h1 : parsed.size ≤ (jsTrim s).length := by
      unfold tryParse at hparse
      split at hparse
      · exact eng.jsonParse_size _ _ hparse
      · cases hparse
    have h2 := jsTrim_length s
    simp only [Json.size]
    omega
  · have hseg := segment.2
    unfold jsSplitComma at hseg
    obtain ⟨l, hl, hl2⟩ := List.mem_map.1 hseg
    have h1 := (splitCommaChars_length _ l hl).2 hcomma
    have h2 := jsTrim_length s
    have h3 : segment.1.length = l.length := by rw [← hl2]; rfl
    have h4 : (jsTrim s).length = (jsTrim s).data.length := rfl
    simp only [Json.size]
    omega
  · have := Json.size_le_sizeList val.1 values val.2
    simp only [Json.size]
    omega

/-- The three properties of `req.body` read by `extractAlbumIds` (`none`:
`undefined`): `body["albumIds[]"]`, `body.albumIds` and `body.albumId`. -/
structure Body where
  albumIdsBracket : Option Json
  albumIds : Option Json
  albumId : Option Json

/-- `extractAlbumIds` (admin.controller.js 73-94); `none` is `undefined`.
Each step carries the collector and `provided`. -/
def extractAlbumIds (eng : Engine) (body : Body) : Option (List String) :=
  let step1 : List String × Bool :=
    match body.albumIdsBracket with
    | some input => (processAlbumInput eng input [], true)
    | none => ([], false)
  let step2 : List String × Bool :=
    match body.albumIds with
    | some input => (processAlbumInput eng input step1.1, true)
    | none => step1
  let step3 : List String × Bool :=
    if !step2.2 then
      match body.albumId with
      | some input => (processAlbumInput eng input step2.1, true)
      | none => step2
    else step2
  if !step3.2 then none else some step3.1

/-- An album id as the result of `extractAlbumIds` should hold it: not empty,
no white space at either end, no comma, and not `none` in any letter case. -/
def CleanAlbumId (eng : Engine) (x : String) : Prop :=
  x ≠ "" ∧
  (∀ c, x.data.head? = some c → isJsWhitespace c = false) ∧
  (∀ c, x.data.getLast? = some c → isJsWhitespace c = false) ∧
  ',' ∉ x.data ∧
  eng.toLowerCase x ≠ "none"

/-- A collector without duplicates whose elements are all clean. -/
def GoodCollector (eng : Engine) (l : List String) : Prop :=
  l.Nodup ∧ ∀ x ∈ l, CleanAlbumId eng x

/-- An engine whose `JSON.parse` knows one text, the array of `"a"` and `"b"`,
and whose `toLowerCase` lowers the letters `A` to `Z`. -/
def tableEngine : Engine :=
  ⟨fun s => if s = "[\"a\",\"b\"]" then some (Json.arr [Json.str "a", Json.str "b"]) else none,
   (by
    intro s v h
    simp only [] at h
    split at h
    · cases h
      rename_i hs
      subst hs
      decide
    · cases h),
   fun s => ⟨s.data.map Char.toLower⟩⟩

/-- A body with `albumIds` an array of raw entries and a stray `albumId`. -/
def exampleBody : Body :=
  ⟨none,
    some (Json.arr [Json.str " a ", Json.str "NONE", Json.str "b, a",
      Json.str "[\"a\",\"b\"]", Json.num (JsNumber.finite false [7] 1),
      Json.num (JsNumber.finite false [1] 22)]),
    some (Json.str "z")⟩

/-! ## The album section of `updateSong` (admin.controller.js 230-259) -/

/-- A call made on the `Album` collection. -/
inductive AlbumCall where
  | pullSong (albumIds : List String)
  | find (albumIds : List String)
  | addSong (albumIds : List String)
  deriving DecidableEq

/-- `toRemove`: the previous ids that `nextIds` does not include. -/
def toRemove (previousIds nextIds : List String) : List String :=
  previousIds.filter (fun albumId => !decide (albumId ∈ nextIds))

/-- `toAdd`: the next ids that `previousIds` does not include. -/
def toAdd (previousIds nextIds : List String) : List String :=
  nextIds.filter (fun albumId => !decide (albumId ∈ previousIds))

/-- The block `if (extractedAlbumIds) ...` of `updateSong`: the calls made on
`Album`, in order, and either the 404 message or the value of `song.albumIds`
afterwards.  `previousIds` are the song's album ids as strings; `findAlbums`
is `Album.find` for ids in a list, returning the ids found as strings. -/
def updateSongAlbums (findAlbums : List String → List String) (previousIds : List String)
    (extractedAlbumIds : Option (List String)) : List AlbumCall × Except String (List String) :=
  match extractedAlbumIds with
  | none => ([], Except.ok previousIds)
  | some nextIds =>
    let removing := toRemove previousIds nextIds
    let adding := toAdd previousIds nextIds
    let pulls := if removing.length ≠ 0 then [AlbumCall.pullSong removing] else []
    if adding.length ≠ 0 then
      let validIds := findAlbums adding
      if validIds.length ≠ adding.length then
        (pulls ++ [AlbumCall.find adding],
          Except.error "One or more selected albums do not exist")
      else
        (pulls ++ [AlbumCall.find adding, AlbumCall.addSong validIds], Except.ok nextIds)
    else (pulls, Except.ok nextIds)

/-! ## Liked songs (user.controller.js 58-104) -/

section Liked
variable {Id : Type}

/-- `likeSong`: the status of the response and `user.likedSongs` after the
handler.  `user` is the `likedSongs` of the user found (`none`: no user),
`songFound` tells whether `Song.findById` found the song, `toStr` is
`toString` on a stored id and `cast` the conversion of the pushed string to an
id. -/
def likeSong (toStr : Id → String) (cast : String → Id) (user : Option (List Id))
    (songFound : Bool) (songId : String) : Nat × Option (List Id) :=
  match user with
  | none => (404, none)
  | some likedSongs =>
    if !songFound then (404, some likedSongs)
    else if likedSongs.any (fun likedId => decide (toStr likedId = songId)) then
      (200, some likedSongs)
    else (200, some (likedSongs ++ [cast songId]))

/-- `unlikeSong`: the status of the response and `user.likedSongs` after the
handler. -/
def unlikeSong (toStr : Id → String) (user : Option (List Id)) (songId : String) :
    Nat × Option (List Id) :=
  match user with
  | none => (404, none)
  | some likedSongs =>
    (200, some (likedSongs.filter (fun likedId => decide (toStr likedId ≠ songId))))

end Liked

/-- `toString` on an id kept as the 24 hex digits, in lower case, that it
returns. -/
def hexIdToString (objectId : String) : String := objectId

/-- The conversion of a string of hex digits to an id kept in lower case: the
digits are read without regard to letter case. -/
def castHexId (value : String) : String := ⟨value.data.map Char.toLower⟩

/-- The id of a song, as `toString` returns it. -/
def songIdLower : String := "aaaaaaaaaaaaaaaaaaaaaaaa"

/-- The same id, spelled with upper-case hex digits. -/
def songIdUpper : String := "AAAAAAAAAAAAAAAAAAAAAAAA"

/-! ## Facts about `Map` -/

section MapFacts
variable {K V : Type} [DecidableEq K]

theorem keys_setEntries (k : K) (v : V) (l : List (K × V)) :
    (setEntries k v l).map Prod.fst
      = if k ∈ l.map Prod.fst then l.map Prod.fst else l.map Prod.fst ++ [k] := by
  induction l with
  | nil => simp [setEntries]
  | cons e rest ih =>
    obtain ⟨k1, v1⟩ := e
    by_cases h : k1 = k
    · subst h; simp [setEntries]
    · have h2 : ¬ k = k1 := fun q => h q.symm
      simp only [setEntries, h, if_false, List.map_cons, ih, List.mem_cons, h2, false_or]
      split <;> simp

theorem mem_keys_set (m : JSMap K V) (k x : K) (v : V) :
    x ∈ (m.set k v).keys ↔ x = k ∨ x ∈ m.keys := by
  unfold JSMap.keys JSMap.set
  simp only [keys_setEntries]
  split
  · rename_i hk
    constructor
    · exact Or.inr
    · rintro (rfl | h)
      · exact hk
      · exact h
  · simp [or_comm]

theorem mem_keys_delete (m : JSMap K V) (k x : K) :
    x ∈ (m.delete k).keys ↔ x ∈ m.keys ∧ x ≠ k := by
  unfold JSMap.keys JSMap.delete deleteEntries
  simp only [List.mem_map, List.mem_filter, decide_eq_true_eq]
  constructor
  · rintro ⟨e, ⟨he, hne⟩, rfl⟩
    exact ⟨⟨e, he, rfl⟩, hne⟩
  · rintro ⟨⟨e, he, rfl⟩, hne⟩
    exact ⟨e, ⟨he, hne⟩, rfl⟩

theorem getEntries_setEntries_self (k : K) (v : V) (l : List (K × V)) :
    getEntries k (setEntries k v l) = some v := by
  induction l with
  | nil => simp [setEntries, getEntries]
  | cons e rest ih =>
    obtain ⟨k1, v1⟩ := e
    by_cases h : k1 = k
    · simp [setEntries, getEntries, h]
    · simp [setEntries, getEntries, h, ih]

theorem getEntries_setEntries_other (k x : K) (v : V) (l : List (K × V)) (hx : x ≠ k) :
    getEntries x (setEntries k v l) = getEntries x l := by
  induction l with
  | nil => simp [setEntries, getEntries, hx.symm]
  | cons e rest ih =>
    obtain ⟨k1, v1⟩ := e
    by_cases h : k1 = k
    · subst h
      have h2 : ¬ k1 = x := fun q => hx q.symm
      simp [setEntries, getEntries, h2]
    · simp [setEntries, getEntries, h, ih]

theorem getEntries_eq_none_iff (k : K) (l : List (K × V)) :
    getEntries k l = none ↔ k ∉ l.map Prod.fst := by
  induction l with
  | nil => simp [getEntries]
  | cons e rest ih =>
    obtain ⟨k1, v1⟩ := e
    by_cases h : k1 = k
    · simp [getEntries, h]
    · have h2 : ¬ k = k1 := fun q => h q.symm
      simp [getEntries, h, h2, ih]

theorem filter_key_eq_nil (k : K) (l : List (K × V)) (hk : k ∉ l.map Prod.fst) :
    l.filter (fun e => decide (e.1 = k)) = [] := by
  rw [List.filter_eq_nil_iff]
  intro e he
  have : e.1 ≠ k := fun q => hk (q ▸ List.mem_map_of_mem Prod.fst he)
  simpa using this

/-- After `set(k, v)` the entries with key `k` are exactly the one entry `(k, v)`. -/
theorem filter_key_setEntries (k : K) (v : V) (l : List (K × V))
    (hl : (l.map Prod.fst).Nodup) :
    (setEntries k v l).filter (fun e => decide (e.1 = k)) = [(k, v)] := by
  induction l with
  | nil => simp [setEntries]
  | cons e rest ih =>
    obtain ⟨k1, v1⟩ := e
    simp only [List.map_cons, List.nodup_cons] at hl
    by_cases h : k1 = k
    · subst h
      simp [setEntries, filter_key_eq_nil k1 rest hl.1]
    · simp [setEntries, h, ih hl.2]

theorem keys_deleteEntries (k : K) (l : List (K × V)) :
    (deleteEntries k l).map Prod.fst = (l.map Prod.fst).filter (fun x => decide (x ≠ k)) := by
  induction l with
  | nil => simp [deleteEntries]
  | cons e rest ih =>
    obtain ⟨k1, v1⟩ := e
    unfold deleteEntries at ih ⊢
    by_cases h : k1 = k
    · simp [List.filter_cons, h]
      simpa using ih
    · simp [List.filter_cons, h]
      simpa using ih

theorem getEntries_of_mem (k : K) (v : V) (l : List (K × V))
    (hl : (l.map Prod.fst).Nodup) (hmem : (k, v) ∈ l) : getEntries k l = some v := by
  induction l with
  | nil => simp at hmem
  | cons e rest ih =>
    obtain ⟨k1, v1⟩ := e
    simp only [List.map_cons, List.nodup_cons] at hl
    rcases List.mem_cons.1 hmem with heq | hrest
    · cases heq
      simp [getEntries]
    · have hk : k ∈ rest.map Prod.fst := List.mem_map_of_mem Prod.fst hrest
      have hne : ¬ k1 = k := fun q => hl.1 (q ▸ hk)
      simp [getEntries, hne, ih hl.2 hrest]

end MapFacts

/-! ## Facts about the handlers and about runs -/

theorem send_message_registry (env : Env) (reg : Registry) (s : SocketId)
    (data : Option MessageFields) : (send_message env reg s data).1 = reg := by
  unfold send_message
  split
  · rfl
  · split <;> rfl

theorem findUserId_eq_none (c : SocketId) (l : List (JSVal × SocketId))
    (h : ∀ e ∈ l, e.2 ≠ c) : findUserId c l = none := by
  induction l with
  | nil => rfl
  | cons e rest ih =>
    obtain ⟨u, c1⟩ := e
    have h1 : c1 ≠ c := h (u, c1) (List.mem_cons_self _ _)
    simp only [findUserId, h1, if_false]
    exact ih (fun e he => h e (List.mem_cons_of_mem _ he))

/-- A property kept by every allowed step holds after every run of allowed
events. -/
theorem run_invariant (env : Env) (P : Registry → Prop) (allowed : Arrival → Prop)
    (hstep : ∀ reg a, allowed a → P reg → P (step env reg a).1) :
    ∀ (evs : List Arrival) (reg : Registry),
      (∀ a ∈ evs, allowed a) → P reg → P (run env reg evs) := by
  intro evs
  induction evs with
  | nil => intro reg _ h; exact h
  | cons a rest ih =>
    intro reg hall h
    exact ih (step env reg a).1 (fun b hb => hall b (List.mem_cons_of_mem _ hb))
      (hstep reg a (hall a (List.mem_cons_self _ _)) h)

theorem user_connected_keys_eq (reg : Registry) (s : SocketId) (u : JSVal)
    (h : reg.userSockets.keys = reg.userActivities.keys) :
    (user_connected reg s u).1.userSockets.keys
      = (user_connected reg s u).1.userActivities.keys := by
  unfold JSMap.keys at h
  simp only [user_connected, JSMap.keys, JSMap.set, keys_setEntries, h]

theorem disconnect_keys_eq (reg : Registry) (s : SocketId)
    (h : reg.userSockets.keys = reg.userActivities.keys) :
    (disconnect reg s).1.userSockets.keys = (disconnect reg s).1.userActivities.keys := by
  unfold disconnect
  split
  · exact h
  · unfold JSMap.keys at h
    simp only [JSMap.keys, JSMap.delete, keys_deleteEntries, h]

theorem update_activity_keys_eq (reg : Registry) (u activity : JSVal)
    (hu : u ∈ reg.userSockets.keys)
    (h : reg.userSockets.keys = reg.userActivities.keys) :
    (update_activity reg (some (u, activity))).1.userSockets.keys
      = (update_activity reg (some (u, activity))).1.userActivities.keys := by
  rw [h] at hu
  unfold JSMap.keys at h hu
  simp only [update_activity, JSMap.keys, JSMap.set, keys_setEntries, hu, if_true, h]

theorem step_keys_subset (env : Env) (reg : Registry) (a : Arrival)
    (h : ∀ u, u ∈ reg.userSockets.keys → u ∈ reg.userActivities.keys) :
    ∀ u, u ∈ (step env reg a).1.userSockets.keys →
      u ∈ (step env reg a).1.userActivities.keys := by
  obtain ⟨s, ev⟩ := a
  intro u
  cases ev with
  | user_connected x =>
    simp only [step, user_connected, mem_keys_set]
    rintro (hx | hx)
    · exact Or.inl hx
    · exact Or.inr (h u hx)
  | update_activity payload =>
    cases payload with
    | none => exact h u
    | some p =>
      obtain ⟨x, act⟩ := p
      simp only [step, update_activity, mem_keys_set]
      intro hx
      exact Or.inr (h u hx)
  | send_message data =>
    simp only [step, send_message_registry]
    exact h u
  | disconnect =>
    simp only [step, disconnect]
    split
    · exact h u
    · simp only [mem_keys_delete]
      rintro ⟨hx, hne⟩
      exact ⟨h u hx, hne⟩

theorem run_keys_eq_of_updatesBound (env : Env) :
    ∀ (evs : List Arrival) (reg : Registry),
      updatesBound env reg evs → reg.userSockets.keys = reg.userActivities.keys →
      (run env reg evs).userSockets.keys = (run env reg evs).userActivities.keys := by
  intro evs
  induction evs with
  | nil => intro reg _ h; exact h
  | cons a rest ih =>
    intro reg hb h
    obtain ⟨hnow, hrest⟩ := hb
    refine ih (step env reg a).1 hrest ?_
    obtain ⟨s, ev⟩ := a
    cases ev with
    | user_connected x => exact user_connected_keys_eq reg s x h
    | update_activity payload =>
      cases payload with
      | none => exact h
      | some p =>
        obtain ⟨x, act⟩ := p
        exact update_activity_keys_eq reg x act (hnow x act rfl) h
    | send_message data =>
      simp only [step, send_message_registry]
      exact h
    | disconnect => exact disconnect_keys_eq reg s h

/-! ## C1: rebinding a user to a new connection -/

/-- C1, as stated, fails: `userA` is bound to `"c1"` with activity
`"Listening"`; after `user_connected(userA)` on `"c2"` the stored activity is
`"Idle"`, not `"Listening"`. -/
theorem C1_rebind_activity_not_preserved :
    regA.userSockets.get userA = some sockC1 ∧
    regA.userActivities.get userA = some (JSVal.str "Listening") ∧
    sockC2 ≠ sockC1 ∧
    (user_connected regA sockC2 userA).1.userActivities.get userA = some (JSVal.str "Idle") ∧
    (user_connected regA sockC2 userA).1.userActivities.get userA
      ≠ some (JSVal.str "Listening") := by
  decide

/-- C1, amended: when `u` is bound to `c1` with activity `a`, handling
`user_connected(u)` on another connection `c2` leaves exactly one record for
`u` in each map: `u` is bound to `c2`, and its activity is reset to `"Idle"`. -/
theorem C1_rebind_resets_activity (reg : Registry) (u a : JSVal) (c1 c2 : SocketId)
    (_hsock : reg.userSockets.get u = some c1)
    (_hact : reg.userActivities.get u = some a)
    (_hne : c2 ≠ c1) :
    ((user_connected reg c2 u).1.userSockets.entries.filter
        (fun e => decide (e.1 = u)) = [(u, c2)]) ∧
    (user_connected reg c2 u).1.userSockets.get u = some c2 ∧
    ((user_connected reg c2 u).1.userActivities.entries.filter
        (fun e => decide (e.1 = u)) = [(u, JSVal.str "Idle")]) ∧
    (user_connected reg c2 u).1.userActivities.get u = some (JSVal.str "Idle") := by
  refine ⟨?_, ?_, ?_, ?_⟩
  · exact filter_key_setEntries u c2 _ reg.userSockets.property
  · exact getEntries_setEntries_self u c2 _
  · exact filter_key_setEntries u (JSVal.str "Idle") _ reg.userActivities.property
  · exact getEntries_setEntries_self u (JSVal.str "Idle") _

/-- C1 amended, at `regA` with `userA` reconnecting on `"c2"`. -/
theorem C1_rebind_resets_activity_witness :
    ((user_connected regA sockC2 userA).1.userSockets.entries.filter
        (fun e => decide (e.1 = userA)) = [(userA, sockC2)]) ∧
    (user_connected regA sockC2 userA).1.userSockets.get userA = some sockC2 ∧
    ((user_connected regA sockC2 userA).1.userActivities.entries.filter
        (fun e => decide (e.1 = userA)) = [(userA, JSVal.str "Idle")]) ∧
    (user_connected regA sockC2 userA).1.userActivities.get userA = some (JSVal.str "Idle") :=
  C1_rebind_resets_activity regA userA (JSVal.str "Listening") sockC1 sockC2
    (by decide) (by decide) (by decide)

/-! ## C2: `update_activity` for a user that is not bound -/

/-- C2, as stated, fails: in the empty registry `userA` is not bound, and
`update_activity` for `userA` creates an entry for it in `userActivities`. -/
theorem C2_update_activity_unbound_creates_entry :
    Registry.empty.userSockets.get userA = none ∧
    (update_activity Registry.empty (some (userA, JSVal.str "Listening"))).1
      ≠ Registry.empty ∧
    (update_activity Registry.empty (some (userA, JSVal.str "Listening"))).1.userActivities.entries
      = [(userA, JSVal.str "Listening")] := by
  decide

/-- C2, amended: for a userId `u` that is not bound in `userSockets`,
`update_activity` leaves `userSockets` as it was and stores the label for `u`
in `userActivities` (an entry for `u` exists afterwards), every other userId
keeping the activity it had. -/
theorem C2_update_activity_unbound (reg : Registry) (u activity : JSVal)
    (_hunbound : reg.userSockets.get u = none) :
    (update_activity reg (some (u, activity))).1.userSockets = reg.userSockets ∧
    (update_activity reg (some (u, activity))).1.userActivities.get u = some activity ∧
    u ∈ (update_activity reg (some (u, activity))).1.userActivities.keys ∧
    (∀ x, x ≠ u →
      (update_activity reg (some (u, activity))).1.userActivities.get x
        = reg.userActivities.get x) := by
  refine ⟨rfl, ?_, ?_, ?_⟩
  · exact getEntries_setEntries_self u activity _
  · exact (mem_keys_set reg.userActivities u u activity).2 (Or.inl rfl)
  · intro x hx
    exact getEntries_setEntries_other u x activity _ hx

/-- C2 amended, at the empty registry with an update for `userA`. -/
theorem C2_update_activity_unbound_witness :
    (update_activity Registry.empty (some (userA, JSVal.str "Listening"))).1.userSockets
      = Registry.empty.userSockets ∧
    (update_activity Registry.empty (some (userA, JSVal.str "Listening"))).1.userActivities.get userA
      = some (JSVal.str "Listening") ∧
    userA ∈ (update_activity Registry.empty (some (userA, JSVal.str "Listening"))).1.userActivities.keys ∧
    (∀ x, x ≠ userA →
      (update_activity Registry.empty (some (userA, JSVal.str "Listening"))).1.userActivities.get x
        = Registry.empty.userActivities.get x) :=
  C2_update_activity_unbound Registry.empty userA (JSVal.str "Listening") (by decide)

/-! ## C3, C4, C5: the message relay -/

/-- C3: when `Message.create` returns `m`, the handler emits exactly one
`message_sent(m)`, to the originating socket `s`; it emits exactly one
`receive_message(m)`, to the socket bound to `receiverId`, when `receiverId`
is bound, and none when it is not; nothing is emitted to all. -/
theorem C3_send_message_persisted (env : Env) (reg : Registry) (s : SocketId)
    (fields : MessageFields) (m : Message)
    (hcreate : env.create fields = Except.ok m) :
    ((send_message env reg s (some fields)).2.filter Effect.isMessageSent
        = [Effect.emit (Target.socket s) (OutEvent.message_sent m)]) ∧
    (∀ c, reg.userSockets.get fields.receiverId = some c →
      (send_message env reg s (some fields)).2.filter Effect.isReceiveMessage
        = [Effect.emit (Target.to c) (OutEvent.receive_message m)]) ∧
    (reg.userSockets.get fields.receiverId = none →
      (send_message env reg s (some fields)).2.filter Effect.isReceiveMessage = []) ∧
    (send_message env reg s (some fields)).2.filter Effect.isBroadcast = [] := by
  have htruthy : ∀ c : SocketId, (JSVal.str c.val).truthy = true := by
    intro c
    simp [JSVal.truthy, c.property]
  refine ⟨?_, ?_, ?_, ?_⟩
  · simp only [send_message, hcreate]
    cases hget : reg.userSockets.get fields.receiverId with
    | none => simp [Effect.isMessageSent]
    | some c => simp [Effect.isMessageSent, htruthy c]
  · intro c hc
    simp [send_message, hcreate, hc, htruthy c, Effect.isReceiveMessage]
  · intro hnone
    simp [send_message, hcreate, hnone, Effect.isReceiveMessage]
  · simp only [send_message, hcreate]
    cases hget : reg.userSockets.get fields.receiverId with
    | none => simp [Effect.isBroadcast]
    | some c => simp [Effect.isBroadcast, htruthy c]

/-- C3 at `regA`: `userB` sends `"hi"` to the bound `userA` from socket `"c2"`. -/
theorem C3_send_message_persisted_witness :
    ((send_message validatingEnv regA sockC2 (some fieldsHi)).2.filter Effect.isMessageSent
        = [Effect.emit (Target.socket sockC2)
            (OutEvent.message_sent ⟨"m1", userB, userA, JSVal.str "hi", 0⟩)]) ∧
    (∀ c, regA.userSockets.get fieldsHi.receiverId = some c →
      (send_message validatingEnv regA sockC2 (some fieldsHi)).2.filter Effect.isReceiveMessage
        = [Effect.emit (Target.to c)
            (OutEvent.receive_message ⟨"m1", userB, userA, JSVal.str "hi", 0⟩)]) ∧
    (regA.userSockets.get fieldsHi.receiverId = none →
      (send_message validatingEnv regA sockC2 (some fieldsHi)).2.filter Effect.isReceiveMessage
        = []) ∧
    (send_message validatingEnv regA sockC2 (some fieldsHi)).2.filter Effect.isBroadcast = [] :=
  C3_send_message_persisted validatingEnv regA sockC2 fieldsHi
    ⟨"m1", userB, userA, JSVal.str "hi", 0⟩ rfl

/-- C4: when `Message.create` fails with reason `reason`, the handler emits no
`receive_message` and no `message_sent`; its only emission is one
`message_error(reason)` to the originating socket; the registry is unchanged. -/
theorem C4_send_message_persistence_fails (env : Env) (reg : Registry) (s : SocketId)
    (fields : MessageFields) (reason : String)
    (hcreate : env.create fields = Except.error reason) :
    (send_message env reg s (some fields)).2.filter Effect.isReceiveMessage = [] ∧
    (send_message env reg s (some fields)).2.filter Effect.isMessageSent = [] ∧
    ((send_message env reg s (some fields)).2.filter Effect.isEmit
        = [Effect.emit (Target.socket s) (OutEvent.message_error reason)]) ∧
    (send_message env reg s (some fields)).1.userSockets = reg.userSockets ∧
    (send_message env reg s (some fields)).1.userActivities = reg.userActivities := by
  simp [send_message, hcreate, Effect.isReceiveMessage, Effect.isMessageSent, Effect.isEmit]

/-- C4 at `regA`: the collaborator rejects a record without `content`. -/
theorem C4_send_message_persistence_fails_witness :
    (send_message validatingEnv regA sockC2 (some fieldsNoContent)).2.filter
        Effect.isReceiveMessage = [] ∧
    (send_message validatingEnv regA sockC2 (some fieldsNoContent)).2.filter
        Effect.isMessageSent = [] ∧
    ((send_message validatingEnv regA sockC2 (some fieldsNoContent)).2.filter Effect.isEmit
        = [Effect.emit (Target.socket sockC2)
            (OutEvent.message_error "Message validation failed")]) ∧
    (send_message validatingEnv regA sockC2 (some fieldsNoContent)).1.userSockets
      = regA.userSockets ∧
    (send_message validatingEnv regA sockC2 (some fieldsNoContent)).1.userActivities
      = regA.userActivities :=
  C4_send_message_persistence_fails validatingEnv regA sockC2 fieldsNoContent
    "Message validation failed" rfl

/-- C5, as stated, fails: for a payload without `content` the handler calls
`Message.create` (here a collaborator that rejects the record): persistence is
invoked, the event is not rejected before it. -/
theorem C5_missing_content_reaches_persistence :
    fieldsNoContent.missing ∧
    Effect.create fieldsNoContent
      ∈ (send_message validatingEnv regA sockC2 (some fieldsNoContent)).2 := by
  decide

/-- C5, amended: a payload lacking `senderId`, `receiverId` or `content` is not
checked by the relay: `Message.create` is called once, with the payload as it
is; if that call fails, the only emission is one `message_error` with the
failure reason to the originating socket (nothing is delivered to a receiver).
Only a `null` or `undefined` payload is rejected before `Message.create`: no
call is made and the only emission is one `message_error` to the originating
socket. -/
theorem C5_missing_fields_not_validated (env : Env) (reg : Registry) (s : SocketId)
    (fields : MessageFields) (_hmissing : fields.missing) :
    ((send_message env reg s (some fields)).2.filter Effect.isCreate
        = [Effect.create fields]) ∧
    (∀ reason, env.create fields = Except.error reason →
      (send_message env reg s (some fields)).2.filter Effect.isEmit
        = [Effect.emit (Target.socket s) (OutEvent.message_error reason)]) ∧
    (send_message env reg s none).2.filter Effect.isCreate = [] ∧
    ((send_message env reg s none).2.filter Effect.isEmit
        = [Effect.emit (Target.socket s) (OutEvent.message_error env.destructureError)]) := by
  refine ⟨?_, ?_, ?_, ?_⟩
  · simp only [send_message]
    cases hcreate : env.create fields with
    | error reason => simp [Effect.isCreate]
    | ok m =>
      cases hget : reg.userSockets.get fields.receiverId with
      | none => simp [Effect.isCreate]
      | some c =>
        simp only []
        split <;> simp [Effect.isCreate]
  · intro reason hcreate
    simp [send_message, hcreate, Effect.isEmit]
  · simp [send_message, Effect.isCreate]
  · simp [send_message, Effect.isEmit]

/-- C5 amended, at `regA` with a payload without `content`. -/
theorem C5_missing_fields_not_validated_witness :
    ((send_message validatingEnv regA sockC2 (some fieldsNoContent)).2.filter Effect.isCreate
        = [Effect.create fieldsNoContent]) ∧
    (∀ reason, validatingEnv.create fieldsNoContent = Except.error reason →
      (send_message validatingEnv regA sockC2 (some fieldsNoContent)).2.filter Effect.isEmit
        = [Effect.emit (Target.socket sockC2) (OutEvent.message_error reason)]) ∧
    (send_message validatingEnv regA sockC2 none).2.filter Effect.isCreate = [] ∧
    ((send_message validatingEnv regA sockC2 none).2.filter Effect.isEmit
        = [Effect.emit (Target.socket sockC2)
            (OutEvent.message_error validatingEnv.destructureError)]) :=
  C5_missing_fields_not_validated validatingEnv regA sockC2 fieldsNoContent (by decide)

/-! ## C6, C7: the two maps and their key sets -/

/-- C6: for every sequence of `user_connected` and `disconnect` events handled
from the empty registry, after every prefix of it a userId is a key of
`userSockets` exactly when it is a key of `userActivities`. -/
theorem C6_key_sets_equal_after_every_prefix (env : Env) (evs : List Arrival)
    (hevs : ∀ a ∈ evs, a.event.isConnectOrDisconnect = true) (n : Nat) (u : JSVal) :
    u ∈ (run env Registry.empty (evs.take n)).userSockets.keys ↔
      u ∈ (run env Registry.empty (evs.take n)).userActivities.keys := by
  have hkeys : (run env Registry.empty (evs.take n)).userSockets.keys
      = (run env Registry.empty (evs.take n)).userActivities.keys := by
    refine run_invariant env (fun r => r.userSockets.keys = r.userActivities.keys)
      (fun a => a.event.isConnectOrDisconnect = true) ?_ (evs.take n) Registry.empty
      (fun a ha => hevs a (List.mem_of_mem_take ha)) rfl
    intro reg a ha h
    obtain ⟨s, ev⟩ := a
    cases ev with
    | user_connected x => exact user_connected_keys_eq reg s x h
    | update_activity payload => simp [InEvent.isConnectOrDisconnect] at ha
    | send_message data => simp [InEvent.isConnectOrDisconnect] at ha
    | disconnect => exact disconnect_keys_eq reg s h
  rw [hkeys]

/-- C6 at the first two events of `connectsThenClose`, for `userB`. -/
theorem C6_key_sets_equal_after_every_prefix_witness :
    userB ∈ (run validatingEnv Registry.empty (connectsThenClose.take 2)).userSockets.keys ↔
      userB ∈ (run validatingEnv Registry.empty (connectsThenClose.take 2)).userActivities.keys :=
  C6_key_sets_equal_after_every_prefix validatingEnv connectsThenClose (by decide) 2 userB

/-- C7, as stated, fails: after the single event `update_activity` for `userA`
handled from the empty registry, `userA` has an entry in `userActivities` and
none in `userSockets`. -/
theorem C7_update_activity_breaks_lockstep :
    userA ∈ (run validatingEnv Registry.empty lateUpdate).userActivities.keys ∧
    userA ∉ (run validatingEnv Registry.empty lateUpdate).userSockets.keys := by
  decide

/-- C7, amended: in every registry reached from the empty one by a sequence of
the four events, a userId with an entry in `userSockets` has an entry in
`userActivities`; the converse holds too when every `update_activity` of the
sequence names a userId that is bound at the time it is handled. -/
theorem C7_sockets_keys_within_activities_keys (env : Env) (evs : List Arrival) :
    (∀ u, u ∈ (run env Registry.empty evs).userSockets.keys →
      u ∈ (run env Registry.empty evs).userActivities.keys) ∧
    (updatesBound env Registry.empty evs →
      ∀ u, u ∈ (run env Registry.empty evs).userSockets.keys ↔
        u ∈ (run env Registry.empty evs).userActivities.keys) := by
  constructor
  · exact run_invariant env
      (fun r => ∀ u, u ∈ r.userSockets.keys → u ∈ r.userActivities.keys)
      (fun _ => True) (fun reg a _ h => step_keys_subset env reg a h) evs Registry.empty
      (fun _ _ => trivial) (fun u hu => by simp [Registry.empty, JSMap.empty, JSMap.keys] at hu)
  · intro hb u
    rw [run_keys_eq_of_updatesBound env evs Registry.empty hb rfl]

/-- C7 amended, at the run of `fullSession`. -/
theorem C7_sockets_keys_within_activities_keys_witness :
    userB ∈ (run validatingEnv Registry.empty fullSession).userActivities.keys ∧
    (userA ∈ (run validatingEnv Registry.empty fullSession).userSockets.keys ↔
      userA ∈ (run validatingEnv Registry.empty fullSession).userActivities.keys) :=
  ⟨(C7_sockets_keys_within_activities_keys validatingEnv fullSession).1 userB (by decide),
    (C7_sockets_keys_within_activities_keys validatingEnv fullSession).2 (by
      simp [updatesBound, fullSession, step, user_connected, update_activity,
        JSMap.keys, JSMap.set, setEntries, Registry.empty, JSMap.empty, userA, userB,
        sockC1]) userA⟩

/-! ## C8, C9, C10: the disconnect handler -/

/-- C8, evaluated where it fails: after `userA` and `userB` announced
themselves on the same socket `"c1"`, handling `disconnect` for `"c1"` removes
`userA` only: `userB` is still bound to `"c1"` and keeps its activity entry. -/
theorem C8_disconnect_leaves_second_user :
    (run validatingEnv Registry.empty twoUsersOneSocket).userSockets.entries
      = [(userA, sockC1), (userB, sockC1)] ∧
    (disconnect (run validatingEnv Registry.empty twoUsersOneSocket) sockC1).1.userSockets.entries
      = [(userB, sockC1)] ∧
    (disconnect (run validatingEnv Registry.empty twoUsersOneSocket) sockC1).1.userActivities.entries
      = [(userB, JSVal.str "Idle")] := by
  decide

/-- The user found by the loop of the disconnect handler has no entry in
either map afterwards. -/
theorem disconnect_removes_found_user (reg : Registry) (c : SocketId) (u : JSVal)
    (hfound : findUserId c reg.userSockets.entries = some u) :
    u ∉ (disconnect reg c).1.userSockets.keys ∧
    u ∉ (disconnect reg c).1.userActivities.keys := by
  simp [disconnect, hfound, mem_keys_delete]

/-- C9, evaluated where it fails: with the userId `""` bound to socket `"c1"`,
handling `disconnect` for `"c1"` removes `""` from both maps and emits
nothing. -/
theorem C9_disconnect_empty_userId_not_broadcast :
    regEmptyUserId.userSockets.get (JSVal.str "") = some sockC1 ∧
    (disconnect regEmptyUserId sockC1).1 = Registry.empty ∧
    (disconnect regEmptyUserId sockC1).2 = [] := by
  decide

/-- The broadcast of the disconnect handler for a truthy userId: when the loop
finds `u` and `u` is truthy, the handler emits exactly one `user_disconnected`
carrying `u`, to all. -/
theorem disconnect_truthy_broadcast (reg : Registry) (c : SocketId) (u : JSVal)
    (hfound : findUserId c reg.userSockets.entries = some u) (htruthy : u.truthy = true) :
    (disconnect reg c).2 = [Effect.emit Target.all (OutEvent.user_disconnected u)] := by
  simp [disconnect, hfound, htruthy]

/-- C10: when no userId is bound to connection `c`, the loop of the disconnect
handler finds no user, both maps stay as they were and nothing is emitted. -/
theorem C10_disconnect_unbound_connection (reg : Registry) (c : SocketId)
    (hunbound : ∀ u, reg.userSockets.get u ≠ some c) :
    findUserId c reg.userSockets.entries = none ∧
    (disconnect reg c).1 = reg ∧
    (disconnect reg c).2 = [] := by
  have hnone : findUserId c reg.userSockets.entries = none := by
    apply findUserId_eq_none
    intro e he heq
    apply hunbound e.1
    rw [← heq]
    exact getEntries_of_mem e.1 e.2 _ reg.userSockets.property he
  refine ⟨hnone, ?_, ?_⟩ <;> simp [disconnect, hnone]

/-- C10 at `regA` and the socket `"c2"`, to which no user is bound. -/
theorem C10_disconnect_unbound_connection_witness :
    findUserId sockC2 regA.userSockets.entries = none ∧
    (disconnect regA sockC2).1 = regA ∧
    (disconnect regA sockC2).2 = [] :=
  C10_disconnect_unbound_connection regA sockC2 (by
    intro u
    by_cases h : userA = u
    · subst h; decide
    · simp [regA, JSMap.get, getEntries, h])

/-! ## C11: a stale disconnect after a rebind -/

/-- When no userId is bound to `c`, the disconnect handler changes nothing and
emits nothing. -/
theorem disconnect_of_unbound (reg : Registry) (c : SocketId)
    (hunbound : ∀ u, reg.userSockets.get u ≠ some c) : disconnect reg c = (reg, []) := by
  have hnone : findUserId c reg.userSockets.entries = none := by
    apply findUserId_eq_none
    intro e he heq
    apply hunbound e.1
    rw [← heq]
    exact getEntries_of_mem e.1 e.2 _ reg.userSockets.property he
  simp [disconnect, hnone]

/-- C11: after `user_connected(u)` on `c1` and then on `c2`, with no other
user bound to `c1`, handling `disconnect` for the stale `c1` leaves `u` bound
to `c2` with an activity entry, and emits nothing (no `user_disconnected`). -/
theorem C11_stale_disconnect_keeps_rebind (reg : Registry) (u : JSVal) (c1 c2 : SocketId)
    (hne : c1 ≠ c2) (hothers : ∀ x, x ≠ u → reg.userSockets.get x ≠ some c1) :
    (disconnect (user_connected (user_connected reg c1 u).1 c2 u).1 c1).1.userSockets.get u
      = some c2 ∧
    u ∈ (disconnect (user_connected (user_connected reg c1 u).1 c2 u).1 c1).1.userActivities.keys ∧
    (disconnect (user_connected (user_connected reg c1 u).1 c2 u).1 c1).2 = [] := by
  have hunbound : ∀ x,
      (user_connected (user_connected reg c1 u).1 c2 u).1.userSockets.get x ≠ some c1 := by
    intro x
    by_cases hx : x = u
    · subst hx
      simp only [user_connected, JSMap.get, JSMap.set, getEntries_setEntries_self]
      intro h
      exact hne (Option.some.inj h).symm
    · simp only [user_connected, JSMap.get, JSMap.set, getEntries_setEntries_other _ _ _ _ hx]
      exact hothers x hx
  rw [disconnect_of_unbound _ c1 hunbound]
  refine ⟨?_, ?_, rfl⟩
  · exact getEntries_setEntries_self u c2 _
  · exact (mem_keys_set _ u u _).2 (Or.inl rfl)

/-- C11 from the empty registry, for `userA` on `"c1"` and then `"c2"`. -/
theorem C11_stale_disconnect_keeps_rebind_witness :
    (disconnect (user_connected (user_connected Registry.empty sockC1 userA).1 sockC2 userA).1
        sockC1).1.userSockets.get userA = some sockC2 ∧
    userA ∈ (disconnect (user_connected (user_connected Registry.empty sockC1 userA).1 sockC2
        userA).1 sockC1).1.userActivities.keys ∧
    (disconnect (user_connected (user_connected Registry.empty sockC1 userA).1 sockC2 userA).1
        sockC1).2 = [] :=
  C11_stale_disconnect_keeps_rebind Registry.empty userA sockC1 sockC2 (by decide)
    (fun _ _ => by simp [Registry.empty, JSMap.empty, JSMap.get, getEntries])

/-! ## C12: the snapshot sent on connect -/

/-- C12: handling `user_connected(u)` on `c` emits exactly one `users_online`,
to the socket `c` itself; it carries the keys of `userSockets` after the bind,
which are exactly the bound userIds, and `u` is one of them. -/
theorem C12_users_online_snapshot (reg : Registry) (c : SocketId) (u : JSVal) :
    ((user_connected reg c u).2.filter Effect.isUsersOnline
      = [Effect.emit (Target.socket c)
          (OutEvent.users_online (user_connected reg c u).1.userSockets.keys)]) ∧
    (∀ x, x ∈ (user_connected reg c u).1.userSockets.keys ↔
      (user_connected reg c u).1.userSockets.get x ≠ none) ∧
    u ∈ (user_connected reg c u).1.userSockets.keys := by
  refine ⟨?_, ?_, ?_⟩
  · simp [user_connected, Effect.isUsersOnline]
  · intro x
    have h := getEntries_eq_none_iff x (user_connected reg c u).1.userSockets.val
    unfold JSMap.keys JSMap.get
    constructor
    · intro hx hnone
      exact (h.1 hnone) hx
    · intro hx
      by_contra hnot
      exact hx (h.2 hnot)
  · exact (mem_keys_set _ u u _).2 (Or.inl rfl)

/-! ## C13: the scenario of the specification -/

/-- C13, as stated, fails: in the scenario the snapshot `users_online` with
`userA` and `userB` is never delivered to the connection `"c1"` of `userA`
(it is emitted to `"c2"` only), so the events received by `"c1"` do not
contain snapshot `[userA]`, snapshot `[userA, userB]`, echo `M1` in order. -/
theorem C13_second_snapshot_not_sent_to_first_connection :
    OutEvent.users_online [userA, userB]
      ∉ observedBy sockC1 (trace scenarioEnv Registry.empty scenario) ∧
    ¬ List.Sublist
        [OutEvent.users_online [userA], OutEvent.users_online [userA, userB],
          OutEvent.message_sent messageM1]
        (observedBy sockC1 (trace scenarioEnv Registry.empty (scenario.take 4))) := by
  decide

/-- C13, amended: in the scenario, with both connections open from the start,
the connection `"c2"` of `userB` receives, in order: arrival of `userA`, the
activity table, arrival of `userB`, the snapshot `[userA, userB]`, the activity
table, the activity change of `userA` to `"Listening"`, the message `M1`, the
departure of `userA` (so the four events of the claim, in its order); the
connection `"c1"` of `userA` receives before its disconnect, in order: arrival
of `userA`, the snapshot `[userA]`, the activity table, arrival of `userB`,
the activity table, its own activity change, the echo of `M1` (so snapshot
`[userA]` and later the echo of `M1`, and no snapshot `[userA, userB]`).  A
connection `"c2"` that opens only after `userA` has connected receives the
same events as above without the first two: the arrival of `userA` is not
among them. -/
theorem C13_scenario_observations :
    (observedBy sockC2 (trace scenarioEnv Registry.empty scenario)
      = [ OutEvent.user_connected userA,
          OutEvent.activities [(userA, JSVal.str "Idle")],
          OutEvent.user_connected userB,
          OutEvent.users_online [userA, userB],
          OutEvent.activities [(userA, JSVal.str "Idle"), (userB, JSVal.str "Idle")],
          OutEvent.activity_updated userA (JSVal.str "Listening"),
          OutEvent.receive_message messageM1,
          OutEvent.user_disconnected userA ]) ∧
    List.Sublist
      [ OutEvent.user_connected userA,
        OutEvent.activity_updated userA (JSVal.str "Listening"),
        OutEvent.receive_message messageM1,
        OutEvent.user_disconnected userA ]
      (observedBy sockC2 (trace scenarioEnv Registry.empty scenario)) ∧
    (observedBy sockC1 (trace scenarioEnv Registry.empty (scenario.take 4))
      = [ OutEvent.user_connected userA,
          OutEvent.users_online [userA],
          OutEvent.activities [(userA, JSVal.str "Idle")],
          OutEvent.user_connected userB,
          OutEvent.activities [(userA, JSVal.str "Idle"), (userB, JSVal.str "Idle")],
          OutEvent.activity_updated userA (JSVal.str "Listening"),
          OutEvent.message_sent messageM1 ]) ∧
    List.Sublist
      [OutEvent.users_online [userA], OutEvent.message_sent messageM1]
      (observedBy sockC1 (trace scenarioEnv Registry.empty (scenario.take 4))) ∧
    (observedBy sockC2
        (trace scenarioEnv (run scenarioEnv Registry.empty (scenario.take 1)) (scenario.drop 1))
      = [ OutEvent.user_connected userB,
          OutEvent.users_online [userA, userB],
          OutEvent.activities [(userA, JSVal.str "Idle"), (userB, JSVal.str "Idle")],
          OutEvent.activity_updated userA (JSVal.str "Listening"),
          OutEvent.receive_message messageM1,
          OutEvent.user_disconnected userA ]) := by
  decide

/-! ## C14: handlers and uncaught exceptions -/

/-- C14, evaluated where it fails: `update_activity` with an `undefined` (or
`null`) payload throws a `TypeError` out of the handler, whatever the
registry; nothing catches it. -/
theorem C14_update_activity_undefined_payload_throws :
    (update_activity regA none).2 = [Effect.throwTypeError] ∧
    (step validatingEnv regA ⟨sockC2, InEvent.update_activity none⟩).2
      = [Effect.throwTypeError] := by
  decide

/-- The other three handlers never throw: `user_connected` and `disconnect`
do not destructure their argument, and `send_message` destructures inside its
`try`. -/
theorem other_handlers_do_not_throw (env : Env) (reg : Registry) (c : SocketId)
    (u : JSVal) (data : Option MessageFields) :
    Effect.throwTypeError ∉ (user_connected reg c u).2 ∧
    Effect.throwTypeError ∉ (send_message env reg c data).2 ∧
    Effect.throwTypeError ∉ (disconnect reg c).2 := by
  refine ⟨?_, ?_, ?_⟩
  · simp [user_connected]
  · unfold send_message
    split
    · simp
    · split
      · simp
      · simp only []
        split
        · simp
        · split <;> simp
  · unfold disconnect
    split
    · simp
    · simp only []
      split <;> simp

/-! ## C15: `update_activity` for a bound user -/

/-- C15: when `u` is bound, `update_activity` for `u` with label `a` stores `a`
for `u`, leaves `userSockets` and the activity of every other userId as they
were, and its only effect is one `activity_updated` carrying `u` and `a`,
emitted to all. -/
theorem C15_update_activity_bound (reg : Registry) (u a : JSVal) (c : SocketId)
    (_hbound : reg.userSockets.get u = some c) :
    (update_activity reg (some (u, a))).1.userActivities.get u = some a ∧
    (update_activity reg (some (u, a))).1.userSockets = reg.userSockets ∧
    (∀ x, x ≠ u →
      (update_activity reg (some (u, a))).1.userActivities.get x
        = reg.userActivities.get x) ∧
    (update_activity reg (some (u, a))).2
      = [Effect.emit Target.all (OutEvent.activity_updated u a)] := by
  refine ⟨?_, rfl, ?_, rfl⟩
  · exact getEntries_setEntries_self u a _
  · intro x hx
    exact getEntries_setEntries_other u x a _ hx

/-- C15 at `regA`: `userA`, bound to `"c1"`, switches to `"Paused"`. -/
theorem C15_update_activity_bound_witness :
    (update_activity regA (some (userA, JSVal.str "Paused"))).1.userActivities.get userA
      = some (JSVal.str "Paused") ∧
    (update_activity regA (some (userA, JSVal.str "Paused"))).1.userSockets
      = regA.userSockets ∧
    (∀ x, x ≠ userA →
      (update_activity regA (some (userA, JSVal.str "Paused"))).1.userActivities.get x
        = regA.userActivities.get x) ∧
    (update_activity regA (some (userA, JSVal.str "Paused"))).2
      = [Effect.emit Target.all (OutEvent.activity_updated userA (JSVal.str "Paused"))] :=
  C15_update_activity_bound regA userA (JSVal.str "Paused") sockC1 (by decide)

/-! ## C16: the CORS origin check and the Replit wildcard entry -/

/-- In production a non-empty origin is allowed exactly when it is an element
of `allowedOrigins`: the comparison is string equality. -/
theorem corsOrigin_production (env : ProcessEnv) (o : String)
    (hprod : env.NODE_ENV = some "production") (ho : o ≠ "") :
    corsOrigin env (some o) = CorsResult.allowed ↔ o ∈ allowedOrigins env := by
  simp [corsOrigin, isProduction, hprod, ho]

/-- C16, evaluated where it fails: in production the origin
`https://abc.riker.replit.dev` is rejected with `Not allowed by CORS`; only
the literal string `https://*.riker.replit.dev` matches the wildcard entry. -/
theorem C16_replit_subdomain_rejected :
    corsOrigin productionEnv (some "https://abc.riker.replit.dev")
      = CorsResult.rejected "Not allowed by CORS" ∧
    corsOrigin productionEnv (some "https://*.riker.replit.dev") = CorsResult.allowed := by
  decide

/-- The characters of a Replit dev origin with subdomain `sub`. -/
theorem replit_origin_data (sub : String) :
    ("https://" ++ sub ++ ".riker.replit.dev").data
      = ['h', 't', 't', 'p', 's', ':', '/', '/'] ++ (sub.data ++
          ['.', 'r', 'i', 'k', 'e', 'r', '.', 'r', 'e', 'p', 'l', 'i', 't', '.', 'd', 'e', 'v']) := by
  simp only [String.data_append, List.append_assoc]

/-- In production with no optional variable set, every origin
`https://<sub>.riker.replit.dev` is rejected, except for the subdomain spelled
`*`. -/
theorem replit_subdomain_rejected (sub : String) (hsub : sub ≠ "*") :
    corsOrigin productionEnv (some ("https://" ++ sub ++ ".riker.replit.dev"))
      = CorsResult.rejected "Not allowed by CORS" := by
  have hdata := replit_origin_data sub
  have hfifth : ("https://" ++ sub ++ ".riker.replit.dev").data.get? 4 = some 's' := by
    rw [hdata]; rfl
  have hlast : ("https://" ++ sub ++ ".riker.replit.dev").data.getLast? = some 'v' := by
    rw [hdata, List.getLast?_append, List.getLast?_append]
    rfl
  have hne : "https://" ++ sub ++ ".riker.replit.dev" ≠ "" := by
    intro h
    rw [h] at hfifth
    exact absurd hfifth (by decide)
  have hnot : "https://" ++ sub ++ ".riker.replit.dev" ∉ allowedOrigins productionEnv := by
    intro hmem
    have hall : allowedOrigins productionEnv = baseAllowedOrigins := by decide
    rw [hall] at hmem
    simp only [baseAllowedOrigins, List.mem_cons, List.mem_singleton, List.not_mem_nil,
      or_false] at hmem
    rcases hmem with h | h | h | h | h | h | h
    · rw [h] at hfifth; exact absurd hfifth (by decide)
    · rw [h] at hfifth; exact absurd hfifth (by decide)
    · rw [h] at hfifth; exact absurd hfifth (by decide)
    · rw [h] at hfifth; exact absurd hfifth (by decide)
    · rw [h] at hfifth; exact absurd hfifth (by decide)
    · rw [h] at hlast; exact absurd hlast (by decide)
    · apply hsub
      have hd : ("https://" ++ sub ++ ".riker.replit.dev").data
          = ("https://*.riker.replit.dev" : String).data := by rw [h]
      rw [hdata] at hd
      have hd2 : sub.data ++ ".riker.replit.dev".data = ['*'] ++ ".riker.replit.dev".data :=
        List.append_cancel_left hd
      exact String.ext (List.append_cancel_right hd2)
  have hprod : isProduction productionEnv = true := by decide
  simp only [corsOrigin, hne, hprod, hnot, if_false, Bool.not_true]
  rfl

/-! ## C17: `extractAlbumIds` -/

theorem trimChars_head (l : List Char) (c : Char) (h : (trimChars l).head? = some c) :
    isJsWhitespace c = false := by
  unfold trimChars at h
  have hpre := List.rdropWhile_prefix isJsWhitespace (l.dropWhile isJsWhitespace)
  obtain ⟨t, ht⟩ := hpre
  cases hr : List.rdropWhile isJsWhitespace (l.dropWhile isJsWhitespace) with
  | nil => rw [hr] at h; simp at h
  | cons a rest =>
    rw [hr] at h ht
    simp at h
    subst h
    have hd := List.head?_dropWhile_not isJsWhitespace l
    rw [← ht] at hd
    simpa using hd

theorem trimChars_getLast (l : List Char) (c : Char) (h : (trimChars l).getLast? = some c) :
    isJsWhitespace c = false := by
  unfold trimChars at h
  have hne : List.rdropWhile isJsWhitespace (l.dropWhile isJsWhitespace) ≠ [] := by
    intro q; rw [q] at h; simp at h
  have := List.rdropWhile_last_not isJsWhitespace (l.dropWhile isJsWhitespace) hne
  rw [List.getLast?_eq_getLast _ hne] at h
  simp at h
  rw [h] at this
  simpa using this

theorem trimChars_subset (l : List Char) : ∀ c ∈ trimChars l, c ∈ l := by
  intro c hc
  unfold trimChars at hc
  exact (List.dropWhile_sublist _).subset ((List.rdropWhile_prefix _ _).subset hc)

theorem setAdd_good (eng : Engine) (l : List String) (x : String)
    (hl : GoodCollector eng l) (hx : CleanAlbumId eng x) : GoodCollector eng (setAdd l x) := by
  unfold setAdd
  split
  · exact hl
  · rename_i hmem
    refine ⟨List.Nodup.append hl.1 (List.nodup_singleton x) (by simpa using hmem), ?_⟩
    intro y hy
    rcases List.mem_append.1 hy with h | h
    · exact hl.2 y h
    · simp at h; subst h; exact hx

theorem addNormalized_sanitize_good (eng : Engine) (t : String) (l : List String)
    (ht : ',' ∉ t.data) (hl : GoodCollector eng l) :
    GoodCollector eng (addNormalized (sanitizeAlbumId eng (Json.str t)) l) := by
  unfold sanitizeAlbumId
  simp only []
  split
  · exact hl
  · rename_i hcond
    simp only [not_or] at hcond
    simp only [addNormalized, ne_eq, hcond.1, not_false_eq_true, if_true]
    apply setAdd_good eng l _ hl
    refine ⟨hcond.1, ?_, ?_, ?_, hcond.2⟩
    · exact fun c hc => trimChars_head t.data c hc
    · exact fun c hc => trimChars_getLast t.data c hc
    · exact fun hc => ht (trimChars_subset t.data _ hc)

theorem foldl_good {α : Type} (eng : Engine) (f : List String → α → List String) (l : List α)
    (hf : ∀ a ∈ l, ∀ acc, GoodCollector eng acc → GoodCollector eng (f acc a)) :
    ∀ init, GoodCollector eng init → GoodCollector eng (l.foldl f init) := by
  induction l with
  | nil => intro init h; exact h
  | cons a rest ih =>
    intro init h
    exact ih (fun b hb => hf b (List.mem_cons_of_mem _ hb)) _
      (hf a (List.mem_cons_self _ _) init h)

theorem Json.size_pos (v : Json) : 0 < v.size := by
  cases v <;> simp [Json.size]

theorem digitChar_ne_comma (k : Nat) (hk : k < 10) : Nat.digitChar k ≠ ',' := by
  interval_cases k <;> decide

theorem toDigitsCore_no_comma (fuel : Nat) :
    ∀ (n : Nat) (ds : List Char), ',' ∉ ds → ',' ∉ Nat.toDigitsCore 10 fuel n ds := by
  induction fuel with
  | zero => intro n ds h; simpa [Nat.toDigitsCore] using h
  | succ f ih =>
    intro n ds h
    have hd : ',' ∉ Nat.digitChar (n % 10) :: ds := by
      simp only [List.mem_cons, not_or]
      exact ⟨fun q => digitChar_ne_comma _ (Nat.mod_lt n (by decide)) q.symm, h⟩
    simp only [Nat.toDigitsCore]
    split
    · exact hd
    · exact ih _ _ hd

theorem digitChars_no_comma (digits : List (Fin 10)) : ',' ∉ digitChars digits := by
  unfold digitChars
  intro h
  obtain ⟨d, _, hd⟩ := List.mem_map.1 h
  exact digitChar_ne_comma d.val d.isLt hd

theorem repr_no_comma (m : Nat) : ',' ∉ (Nat.repr m).data :=
  toDigitsCore_no_comma _ _ _ (by simp)

/-- `String(x)` of a number has no comma. -/
theorem numberToString_no_comma (x : JsNumber) : ',' ∉ (numberToString x).data := by
  cases x with
  | nan => decide
  | infinity negative => cases negative <;> decide
  | zero => decide
  | finite negative digits n =>
    have hsign : ',' ∉ (if negative then ['-'] else [] : List Char) := by
      cases negative <;> decide
    have hexp : ',' ∉ ([if n - 1 < 0 then '-' else '+'] ++ (Nat.repr (n - 1).natAbs).data :
        List Char) := by
      simp only [List.mem_append, List.mem_singleton, not_or]
      refine ⟨?_, repr_no_comma _⟩
      split <;> decide
    have hzeros : ∀ m : Nat, ',' ∉ List.replicate m '0' := by
      intro m h
      exact absurd (List.eq_of_mem_replicate h) (by decide)
    simp only [numberToString, List.mem_append, not_or]
    refine ⟨hsign, ?_⟩
    split
    · simp only [List.mem_append, not_or]
      exact ⟨digitChars_no_comma _, hzeros _⟩
    · split
      · simp only [List.mem_append, not_or]
        exact ⟨⟨digitChars_no_comma _, by decide⟩, digitChars_no_comma _⟩
      · split
        · simp only [List.mem_append, not_or]
          exact ⟨⟨by decide, hzeros _⟩, digitChars_no_comma _⟩
        · split
          · simp only [List.mem_append, not_or] at hexp ⊢
            exact ⟨⟨digitChars_no_comma _, by decide⟩, hexp⟩
          · simp only [List.mem_append, not_or] at hexp ⊢
            exact ⟨⟨⟨⟨digitChars_no_comma _, by decide⟩, digitChars_no_comma _⟩, by decide⟩,
              hexp⟩

/-- `String(x)` on some numbers: `123`, `1200`, `1.5`, `-0.000001`, `1e21`,
`1.5e-7` and `123456789012345680000` print as JavaScript prints them. -/
theorem numberToString_examples :
    numberToString (JsNumber.finite false [1, 2, 3] 3) = "123" ∧
    numberToString (JsNumber.finite false [1, 2] 4) = "1200" ∧
    numberToString (JsNumber.finite false [1, 5] 1) = "1.5" ∧
    numberToString (JsNumber.finite true [1] (-5)) = "-0.000001" ∧
    numberToString (JsNumber.finite false [1] 22) = "1e+21" ∧
    numberToString (JsNumber.finite false [1, 5] (-6)) = "1.5e-7" ∧
    numberToString (JsNumber.finite false
      [1, 2, 3, 4, 5, 6, 7, 8, 9, 0, 1, 2, 3, 4, 5, 6, 8] 21) = "123456789012345680000" := by
  decide

theorem booleanToString_no_comma (b : Bool) : ',' ∉ (booleanToString b).data := by
  cases b <;> decide

theorem processAlbumInput_good (eng : Engine) :
    ∀ (n : Nat) (input : Json) (collector : List String), input.size ≤ n →
      GoodCollector eng collector → GoodCollector eng (processAlbumInput eng input collector) := by
  intro n
  induction n with
  | zero =>
    intro input collector hsize
    have := Json.size_pos input
    omega
  | succ n ih =>
    intro input collector hsize hgood
    cases input with
    | null => rw [processAlbumInput]; exact hgood
    | bool b =>
      rw [processAlbumInput]
      exact addNormalized_sanitize_good eng _ _ (booleanToString_no_comma b) hgood
    | num k =>
      rw [processAlbumInput]
      exact addNormalized_sanitize_good eng _ _ (numberToString_no_comma k) hgood
    | str s =>
      rw [processAlbumInput]
      simp only [Json.size] at hsize
      split
      · exact hgood
      · split
        · rename_i parsed hparse
          apply ih _ _ _ hgood
          have h1 : parsed.size ≤ (jsTrim s).length := by
            unfold tryParse at hparse
            split at hparse
            · exact eng.jsonParse_size _ _ hparse
            · cases hparse
          have h2 := jsTrim_length s
          omega
        · split
          · rename_i hcomma
            apply foldl_good eng _ _ _ _ hgood
            intro seg _ acc hacc
            apply ih _ _ _ hacc
            have hseg := seg.2
            unfold jsSplitComma at hseg
            obtain ⟨l, hl, hl2⟩ := List.mem_map.1 hseg
            have h1 := (splitCommaChars_length _ l hl).2 hcomma
            have h2 := jsTrim_length s
            have h3 : seg.1.length = l.length := by rw [← hl2]; rfl
            have h4 : (jsTrim s).length = (jsTrim s).data.length := rfl
            simp only [Json.size]
            omega
          · rename_i hcomma
            exact addNormalized_sanitize_good eng _ _ hcomma hgood
    | arr items =>
      rw [processAlbumInput]
      apply foldl_good eng _ _ _ _ hgood
      intro v _ acc hacc
      apply ih _ _ _ hacc
      have := Json.size_le_sizeList v.1 items v.2
      simp only [Json.size] at hsize
      omega
    | obj values =>
      rw [processAlbumInput]
      apply foldl_good eng _ _ _ _ hgood
      intro v _ acc hacc
      apply ih _ _ _ hacc
      have := Json.size_le_sizeList v.1 values v.2
      simp only [Json.size] at hsize
      omega

theorem processAlbumInput_arr (eng : Engine) (items : List Json) (collector : List String) :
    processAlbumInput eng (Json.arr items) collector
      = items.foldl (fun acc val => processAlbumInput eng val acc) collector := by
  rw [processAlbumInput]
  simp [List.foldl_attach]

theorem processAlbumInput_str_parsed (eng : Engine) (s : String) (parsed : Json)
    (collector : List String) (h1 : jsTrim s ≠ "")
    (h2 : tryParse eng (jsTrim s) = some parsed) :
    processAlbumInput eng (Json.str s) collector = processAlbumInput eng parsed collector := by
  rw [processAlbumInput]
  split
  · contradiction
  · split
    · rename_i p hp
      rw [h2] at hp
      cases hp
      rfl
    · rename_i hp
      rw [h2] at hp
      cases hp

theorem processAlbumInput_str_split (eng : Engine) (s : String) (collector : List String)
    (h1 : jsTrim s ≠ "") (h2 : tryParse eng (jsTrim s) = none)
    (h3 : ',' ∈ (jsTrim s).data) :
    processAlbumInput eng (Json.str s) collector
      = (jsSplitComma (jsTrim s)).foldl
          (fun acc segment => processAlbumInput eng (Json.str segment) acc) collector := by
  rw [processAlbumInput]
  split
  · contradiction
  · split
    · rename_i p hp
      rw [h2] at hp
      cases hp
    · simp [h3, List.foldl_attach]

theorem processAlbumInput_str_plain (eng : Engine) (s : String) (collector : List String)
    (h1 : jsTrim s ≠ "") (h2 : tryParse eng (jsTrim s) = none)
    (h3 : ',' ∉ (jsTrim s).data) :
    processAlbumInput eng (Json.str s) collector
      = addNormalized (sanitizeAlbumId eng (Json.str (jsTrim s))) collector := by
  rw [processAlbumInput]
  split
  · contradiction
  · split
    · rename_i p hp
      rw [h2] at hp
      cases hp
    · simp [h3]

/-- C17: `extractAlbumIds` returns `undefined` exactly when none of
`body["albumIds[]"]`, `body.albumIds` and `body.albumId` is defined; a list it
returns has no duplicates and only elements that are non-empty, without white
space at either end, without a comma and not `none` in any letter case; and
when `body["albumIds[]"]` or `body.albumIds` is defined the result does not
depend on `body.albumId`. -/
theorem C17_extractAlbumIds (eng : Engine) (body : Body) :
    (extractAlbumIds eng body = none ↔
      body.albumIdsBracket = none ∧ body.albumIds = none ∧ body.albumId = none) ∧
    (∀ ids, extractAlbumIds eng body = some ids →
      ids.Nodup ∧ ∀ x ∈ ids, CleanAlbumId eng x) ∧
    ((body.albumIdsBracket ≠ none ∨ body.albumIds ≠ none) →
      ∀ other, extractAlbumIds eng body
        = extractAlbumIds eng ⟨body.albumIdsBracket, body.albumIds, other⟩) := by
  have hgood : ∀ input c, GoodCollector eng c →
      GoodCollector eng (processAlbumInput eng input c) :=
    fun input c h => processAlbumInput_good eng input.size input c (Nat.le_refl _) h
  have hnil : GoodCollector eng [] := ⟨List.nodup_nil, fun x hx => by simp at hx⟩
  obtain ⟨bracket, ids, single⟩ := body
  refine ⟨?_, ?_, ?_⟩
  · cases bracket <;> cases ids <;> cases single <;> simp [extractAlbumIds]
  · intro out hout
    cases bracket <;> cases ids <;> cases single <;>
      simp only [extractAlbumIds, Bool.not_true, Bool.not_false, if_true, if_false,
        Bool.false_eq_true, Option.some.injEq] at hout
    · cases hout
    all_goals subst hout
    · exact hgood _ _ hnil
    · exact hgood _ _ hnil
    · exact hgood _ _ hnil
    · exact hgood _ _ hnil
    · exact hgood _ _ hnil
    · exact hgood _ _ (hgood _ _ hnil)
    · exact hgood _ _ (hgood _ _ hnil)
  · intro hdef other
    cases bracket <;> cases ids <;> cases single <;> cases other <;>
      simp [extractAlbumIds] at hdef ⊢

/-- The album ids extracted from `exampleBody`: `" a "` is trimmed, `"NONE"`
is dropped, `"b, a"` is split, the JSON text repeats `a` and `b`, the numbers
`7` and `1e21` are rendered, and `albumId` is not looked at. -/
theorem extractAlbumIds_exampleBody :
    extractAlbumIds tableEngine exampleBody = some ["a", "b", "7", "1e+21"] := by
  have e1 : processAlbumInput tableEngine (Json.str " a ") [] = ["a"] := by
    rw [processAlbumInput_str_plain tableEngine " a " [] (by decide) rfl (by decide)]
    decide
  have e2 : processAlbumInput tableEngine (Json.str "NONE") ["a"] = ["a"] := by
    rw [processAlbumInput_str_plain tableEngine "NONE" ["a"] (by decide) rfl (by decide)]
    decide
  have e3a : processAlbumInput tableEngine (Json.str "b") ["a"] = ["a", "b"] := by
    rw [processAlbumInput_str_plain tableEngine "b" ["a"] (by decide) rfl (by decide)]
    decide
  have e3b : processAlbumInput tableEngine (Json.str " a") ["a", "b"] = ["a", "b"] := by
    rw [processAlbumInput_str_plain tableEngine " a" ["a", "b"] (by decide) rfl (by decide)]
    decide
  have e3 : processAlbumInput tableEngine (Json.str "b, a") ["a"] = ["a", "b"] := by
    rw [processAlbumInput_str_split tableEngine "b, a" ["a"] (by decide) rfl (by decide)]
    have hsplit : jsSplitComma (jsTrim "b, a") = ["b", " a"] := by decide
    rw [hsplit]
    simp only [List.foldl, e3a, e3b]
  have e4a : processAlbumInput tableEngine (Json.str "a") ["a", "b"] = ["a", "b"] := by
    rw [processAlbumInput_str_plain tableEngine "a" ["a", "b"] (by decide) rfl (by decide)]
    decide
  have e4b : processAlbumInput tableEngine (Json.str "b") ["a", "b"] = ["a", "b"] := by
    rw [processAlbumInput_str_plain tableEngine "b" ["a", "b"] (by decide) rfl (by decide)]
    decide
  have e4 : processAlbumInput tableEngine (Json.str "[\"a\",\"b\"]") ["a", "b"]
      = ["a", "b"] := by
    rw [processAlbumInput_str_parsed tableEngine "[\"a\",\"b\"]"
      (Json.arr [Json.str "a", Json.str "b"]) ["a", "b"] (by decide) rfl]
    rw [processAlbumInput_arr]
    simp only [List.foldl, e4a, e4b]
  have e5 : processAlbumInput tableEngine (Json.num (JsNumber.finite false [7] 1)) ["a", "b"]
      = ["a", "b", "7"] := by
    rw [processAlbumInput]
    decide
  have e6 : processAlbumInput tableEngine (Json.num (JsNumber.finite false [1] 22))
      ["a", "b", "7"] = ["a", "b", "7", "1e+21"] := by
    rw [processAlbumInput]
    decide
  simp only [extractAlbumIds, exampleBody, processAlbumInput_arr, List.foldl, e1, e2, e3, e4,
    e5, e6, Bool.not_true, Bool.false_eq_true, if_false]

/-- C17 at `exampleBody`: the extracted list `a`, `b`, `7`, `1e+21` has no
duplicates and only clean elements. -/
theorem C17_extractAlbumIds_witness :
    (["a", "b", "7", "1e+21"] : List String).Nodup ∧
    ∀ x ∈ (["a", "b", "7", "1e+21"] : List String), CleanAlbumId tableEngine x :=
  (C17_extractAlbumIds tableEngine exampleBody).2.1 ["a", "b", "7", "1e+21"]
    extractAlbumIds_exampleBody

/-! ## C18: the album diff of `updateSong` -/

/-- C18: `toRemove` holds exactly the previous ids missing from the next ids,
`toAdd` exactly the next ids missing from the previous ones; no id is in both;
the previous ids without `toRemove`, together with `toAdd`, are the next ids;
and when previous and next ids are the same set, both lists are empty and no
call is made on `Album`. -/
theorem C18_album_diff (findAlbums : List String → List String)
    (previousIds nextIds : List String) :
    (∀ x, x ∈ toRemove previousIds nextIds ↔ x ∈ previousIds ∧ x ∉ nextIds) ∧
    (∀ x, x ∈ toAdd previousIds nextIds ↔ x ∈ nextIds ∧ x ∉ previousIds) ∧
    (∀ x, x ∈ toRemove previousIds nextIds → x ∉ toAdd previousIds nextIds) ∧
    (∀ x, ((x ∈ previousIds ∧ x ∉ toRemove previousIds nextIds)
        ∨ x ∈ toAdd previousIds nextIds) ↔ x ∈ nextIds) ∧
    ((∀ x, x ∈ previousIds ↔ x ∈ nextIds) →
      toRemove previousIds nextIds = [] ∧ toAdd previousIds nextIds = [] ∧
      updateSongAlbums findAlbums previousIds (some nextIds) = ([], Except.ok nextIds)) := by
  have hrem : ∀ x, x ∈ toRemove previousIds nextIds ↔ x ∈ previousIds ∧ x ∉ nextIds := by
    intro x; simp [toRemove]
  have hadd : ∀ x, x ∈ toAdd previousIds nextIds ↔ x ∈ nextIds ∧ x ∉ previousIds := by
    intro x; simp [toAdd]
  refine ⟨hrem, hadd, ?_, ?_, ?_⟩
  · intro x hx hx2
    exact ((hrem x).1 hx).2 ((hadd x).1 hx2).1
  · intro x
    rw [hrem, hadd]
    by_cases h1 : x ∈ previousIds <;> by_cases h2 : x ∈ nextIds <;> simp [h1, h2]
  · intro hsame
    have h1 : toRemove previousIds nextIds = [] := by
      rw [List.eq_nil_iff_forall_not_mem]
      intro x hx
      exact ((hrem x).1 hx).2 ((hsame x).1 ((hrem x).1 hx).1)
    have h2 : toAdd previousIds nextIds = [] := by
      rw [List.eq_nil_iff_forall_not_mem]
      intro x hx
      exact ((hadd x).1 hx).2 ((hsame x).2 ((hadd x).1 hx).1)
    refine ⟨h1, h2, ?_⟩
    simp [updateSongAlbums, h1, h2]

/-- C18 for the previous ids `a`, `b` and the next ids `b`, `a`. -/
theorem C18_album_diff_witness :
    toRemove ["a", "b"] ["b", "a"] = [] ∧ toAdd ["a", "b"] ["b", "a"] = [] ∧
    updateSongAlbums id ["a", "b"] (some ["b", "a"]) = ([], Except.ok ["b", "a"]) :=
  (C18_album_diff id ["a", "b"] ["b", "a"]).2.2.2.2 (by
    intro x
    simp only [List.mem_cons, List.mem_singleton, List.not_mem_nil, or_false]
    exact or_comm)

/-! ## C19: liking and unliking a song -/

/-- Liking and unliking with `songId` spelled as `toString` spells the id
`sid` of the song, for a user whose `likedSongs` has no duplicates:
`likeSong` answers 200 with a list `once`; `likeSong` again leaves `once` as
it is; `sid` occurs exactly once in `once` and the other entries are those of
the original list, in the same order; `unlikeSong` after `likeSong` leaves the
original list with `sid` removed, which does not contain `sid`. -/
theorem like_unlike_same_spelling {Id : Type} [DecidableEq Id] (toStr : Id → String)
    (cast : String → Id) (hround : ∀ i, cast (toStr i) = i)
    (likedSongs : List Id) (hnodup : likedSongs.Nodup)
    (sid : Id) (songId : String) (hsong : toStr sid = songId) :
    ∃ once : List Id,
      likeSong toStr cast (some likedSongs) true songId = (200, some once) ∧
      likeSong toStr cast (some once) true songId = (200, some once) ∧
      once.count sid = 1 ∧
      once.filter (fun i => decide (i ≠ sid)) = likedSongs.filter (fun i => decide (i ≠ sid)) ∧
      unlikeSong toStr (some once) songId = (200, some (likedSongs.erase sid)) ∧
      sid ∉ likedSongs.erase sid := by
  have hinj : ∀ i, toStr i = songId ↔ i = sid := by
    intro i
    constructor
    · intro h
      rw [← hround i, h, ← hsong, hround]
    · intro h
      rw [h, hsong]
  have hany : ∀ l : List Id,
      l.any (fun likedId => decide (toStr likedId = songId)) = decide (sid ∈ l) := by
    intro l
    rw [Bool.eq_iff_iff]
    simp only [List.any_eq_true, decide_eq_true_eq, hinj]
    constructor
    · rintro ⟨i, hi, rfl⟩; exact hi
    · intro h; exact ⟨sid, h, rfl⟩
  have hcast : cast songId = sid := by rw [← hsong, hround]
  have hfilter : ∀ l : List Id,
      l.filter (fun likedId => decide (toStr likedId ≠ songId))
        = l.filter (fun i => decide (i ≠ sid)) := by
    intro l
    apply List.filter_congr
    intro i _
    simp [hinj]
  have herase : likedSongs.filter (fun i => decide (i ≠ sid)) = likedSongs.erase sid := by
    rw [hnodup.erase_eq_filter]
    apply List.filter_congr
    intro i _
    by_cases h : i = sid <;> simp [h]
  have hnot : sid ∉ likedSongs.erase sid := by
    rw [← herase]
    simp
  by_cases hmem : sid ∈ likedSongs
  · refine ⟨likedSongs, ?_, ?_, List.count_eq_one_of_mem hnodup hmem, rfl, ?_, hnot⟩
    · simp [likeSong, hany, hmem]
    · simp [likeSong, hany, hmem]
    · simp only [unlikeSong, hfilter, herase]
  · have hnodup2 : (likedSongs ++ [sid]).Nodup :=
      List.Nodup.append hnodup (List.nodup_singleton sid) (by simpa using hmem)
    have hkeep : (likedSongs ++ [sid]).filter (fun i => decide (i ≠ sid))
        = likedSongs.filter (fun i => decide (i ≠ sid)) := by
      simp [List.filter_append]
    refine ⟨likedSongs ++ [sid], ?_, ?_,
      List.count_eq_one_of_mem hnodup2 (by simp), hkeep, ?_, hnot⟩
    · simp [likeSong, hany, hmem, hcast]
    · simp [likeSong, hany]
    · simp only [unlikeSong, hfilter, hkeep, herase]

/-- With ids that are their own strings: the user likes `s3` after `s1` and
`s2`. -/
theorem like_unlike_same_spelling_example :
    ∃ once : List String,
      likeSong id id (some ["s1", "s2"]) true "s3" = (200, some once) ∧
      likeSong id id (some once) true "s3" = (200, some once) ∧
      once.count "s3" = 1 ∧
      once.filter (fun i => decide (i ≠ "s3"))
        = (["s1", "s2"] : List String).filter (fun i => decide (i ≠ "s3")) ∧
      unlikeSong id (some once) "s3" = (200, some ((["s1", "s2"] : List String).erase "s3")) ∧
      "s3" ∉ (["s1", "s2"] : List String).erase "s3" :=
  like_unlike_same_spelling id id (fun _ => rfl) ["s1", "s2"] (by decide) "s3" "s3" rfl

/-- C19, evaluated where it fails: the song with id `aaaaaaaaaaaaaaaaaaaaaaaa`
exists and the request spells it `AAAAAAAAAAAAAAAAAAAAAAAA`, which converts
to the same id.  From an empty `likedSongs`, `likeSong` stores the id;
`likeSong` again stores it a second time, because `toString` of the stored id
differs from the spelling of the request; and `unlikeSong` with the same
spelling removes nothing. -/
theorem C19_like_upper_case_spelling_duplicates :
    castHexId songIdUpper = songIdLower ∧
    likeSong hexIdToString castHexId (some []) true songIdUpper
      = (200, some [songIdLower]) ∧
    likeSong hexIdToString castHexId (some [songIdLower]) true songIdUpper
      = (200, some [songIdLower, songIdLower]) ∧
    unlikeSong hexIdToString (some [songIdLower, songIdLower]) songIdUpper
      = (200, some [songIdLower, songIdLower]) := by
  decide

end DRSMusic
